import Mathlib

/-!
Shallow embedding of the `terminal` package of `subhav/terminal_parser`
(files `terminal.go`, `handlers.go`, `parser.go`, `render.go`), used to check
the claims of the natural-language specification against the code.

Modelling conventions:
* Go bytes are `Nat` values in `0..255`; Go `int` is `Int`; the `uint32`
  style-flag bitmask is a `Nat` with bitwise operations (complement is taken
  against the 32-bit mask `0xFFFFFFFF`, matching `^flags` on `uint32`).
* Go pointers to `styleAttributes` are modelled with an explicit store: the
  screen carries `store : List StyleAttributes`, and a node or the screen's
  `activeAttributes` field holds an index into that store.  Allocating a new
  bundle appends to the store; writing through the current pointer is
  `List.set` at the `activeAttributes` index.
* Go slices are modelled as lists with capacity equal to length; fallible
  operations (out-of-range slice or index, `panic`) return `Option`/a
  distinguished result, with `none` standing for a Go panic.
-/

namespace TP

/-- Color of a cell.  Modelled from the spec: the `Color` interface with its
`ANSIColor` (indexed, 0-255) and `RGBColor` (three 8-bit components) variants
is referenced by `handlers.go` and `render.go` but its defining file is not
part of the sources; the spec (§3 "Color") describes exactly these variants. -/
inductive Color where
| ansi (n : Int)
| rgb (r g b : Nat)
deriving DecidableEq, Repr

/-- Style flag constants, from the `iota` block in `terminal.go`. -/
def Bold : Nat := 1
def Dim : Nat := 2
def Italic : Nat := 4
def Underline : Nat := 8
def Blink : Nat := 16
def Inverted : Nat := 32
def Hidden : Nat := 64
def Strikethrough : Nat := 128
def DoubleUnderline : Nat := 256
def Superscript : Nat := 512
def Subscript : Nat := 1024

/-- `styleAttributes` from `terminal.go`: style flag bitmask, optional
foreground/background/underline colors (`none` = Go `nil` = default), and
hyperlink URI. -/
structure StyleAttributes where
  styleFlags : Nat
  fg : Option Color
  bg : Option Color
  underline : Option Color
  uri : String
deriving DecidableEq, Repr

/-- The Go zero value `styleAttributes{}`. -/
def defaultAttrs : StyleAttributes := ⟨0, none, none, none, ""⟩

/-- `(*styleAttributes).Empty` from `terminal.go`. -/
def StyleAttributes.Empty (a : StyleAttributes) : Bool := a = defaultAttrs

/-- `(*styleAttributes).hasStyle` from `terminal.go`. -/
def StyleAttributes.hasStyle (a : StyleAttributes) (flags : Nat) : Bool :=
  a.styleFlags &&& flags ≠ 0

/-- `node` from `terminal.go`: a rune plus a reference (store index) to a
`styleAttributes` bundle. -/
structure Node where
  r : Char
  attrs : Nat
deriving DecidableEq, Repr

/-- `screen` from `terminal.go`.  `store` is the modelled heap of attribute
bundles; `activeAttributes` is the index of the bundle new nodes reference. -/
structure Screen where
  scrollback : List (List Node)
  activeLine : List Node
  pos : Nat
  store : List StyleAttributes
  activeAttributes : Nat
deriving DecidableEq, Repr

/-- `newScreen` from `terminal.go`: one freshly allocated empty bundle. -/
def initScreen : Screen := ⟨[], [], 0, [defaultAttrs], 0⟩

/-- The bundle currently pointed to by `s.activeAttributes`. -/
def Screen.curAttrs (s : Screen) : StyleAttributes :=
  s.store.getD s.activeAttributes defaultAttrs

/-- Overwrite the bundle currently pointed to by `s.activeAttributes`
(a write through the Go pointer). -/
def Screen.setCur (s : Screen) (a : StyleAttributes) : Screen :=
  { s with store := s.store.set s.activeAttributes a }

/-- `(*screen).print` from `terminal.go`: overwrite the cell at `pos` if in
range, otherwise append; advance `pos`. -/
def Screen.print (s : Screen) (r : Char) : Screen :=
  if s.pos < s.activeLine.length then
    { s with activeLine := s.activeLine.set s.pos ⟨r, s.activeAttributes⟩,
             pos := s.pos + 1 }
  else
    { s with activeLine := s.activeLine ++ [⟨r, s.activeAttributes⟩],
             pos := s.pos + 1 }

/-- `(*screen).backspace` from `terminal.go`.  The Go code guards only on an
empty line and then computes `append(activeLine[:pos-1], activeLine[pos:]...)`;
the slice expressions panic unless `1 ≤ pos ≤ len(activeLine)`, which `none`
models. -/
def Screen.backspace (s : Screen) : Option Screen :=
  if s.activeLine.length = 0 then some s
  else if 1 ≤ s.pos ∧ s.pos ≤ s.activeLine.length then
    some { s with activeLine := s.activeLine.take (s.pos - 1) ++ s.activeLine.drop s.pos,
                  pos := s.pos - 1 }
  else none

/-- `(*screen).newline` from `terminal.go`. -/
def Screen.newline (s : Screen) : Screen :=
  { s with scrollback := s.scrollback ++ [s.activeLine], activeLine := [], pos := 0 }

/-- `(*screen).cr` from `terminal.go`. -/
def Screen.cr (s : Screen) : Screen := { s with pos := 0 }

/-- Helper for the counted loop in `(*screen).newlines`. -/
def Screen.newlinesN : Screen → Nat → Screen
| s, 0 => s
| s, k + 1 => Screen.newlinesN s.newline k

/-- `(*screen).newlines` from `terminal.go`: `n` iterations of `newline`
(zero when `n` is negative, as in the Go `for` loop). -/
def Screen.newlines (s : Screen) (n : Int) : Screen := s.newlinesN n.toNat

/-- Helper for the padding loop in `(*screen).setPos`: `k` calls of
`print(' ')`. -/
def Screen.padN : Screen → Nat → Screen
| s, 0 => s
| s, k + 1 => Screen.padN (s.print ' ') k

/-- `(*screen).setPos` from `terminal.go`.  `x` is ignored; negative `y`
resets `pos` to 0; otherwise the loop `for i := len(activeLine); i < y; i++`
runs `print(' ')` exactly `max 0 (y - len(activeLine))` times (the bound is
read once at loop entry), then `pos ← y`. -/
def Screen.setPos (s : Screen) (x y : Int) : Screen :=
  if y < 0 then { s with pos := 0 }
  else { s.padN (y - s.activeLine.length).toNat with pos := y.toNat }

/-- `(*screen).left` from `terminal.go`. -/
def Screen.left (s : Screen) (n : Int) : Screen := s.setPos 0 ((s.pos : Int) - n)

/-- `(*screen).right` from `terminal.go`. -/
def Screen.right (s : Screen) (n : Int) : Screen := s.setPos 0 ((s.pos : Int) + n)

/-- `(*screen).clear` from `terminal.go`. -/
def Screen.clear (s : Screen) : Screen := { s with activeLine := [], pos := 0 }

/-- `(*screen).clearLeft` from `terminal.go`: overwrite cells `[0, pos)` with
space-nodes referencing the current bundle.  The index assignment panics
(`none`) when `pos > len(activeLine)`. -/
def Screen.clearLeft (s : Screen) : Option Screen :=
  if s.pos ≤ s.activeLine.length then
    some { s with activeLine :=
      List.replicate s.pos (⟨' ', s.activeAttributes⟩ : Node) ++ s.activeLine.drop s.pos }
  else none

/-- `(*screen).clearRight` from `terminal.go`: truncate to `pos`.  The slice
expression panics (`none`) when `pos` exceeds the length. -/
def Screen.clearRight (s : Screen) : Option Screen :=
  if s.pos ≤ s.activeLine.length then some { s with activeLine := s.activeLine.take s.pos }
  else none

/-- `(*screen).copyAttributes` from `terminal.go`: clone the current bundle
(allocate a copy, redirect `activeAttributes` to it). -/
def Screen.copyAttributes (s : Screen) : Screen :=
  { s with store := s.store ++ [s.curAttrs], activeAttributes := s.store.length }

/-- `(*screen).resetAttributes` from `terminal.go`: point `activeAttributes`
at a freshly allocated all-defaults bundle. -/
def Screen.resetAttributes (s : Screen) : Screen :=
  { s with store := s.store ++ [defaultAttrs], activeAttributes := s.store.length }

/-- `(*screen).setStyle` from `terminal.go`. -/
def Screen.setStyle (s : Screen) (flags : Nat) : Screen :=
  let s2 := s.copyAttributes
  s2.setCur { s2.curAttrs with styleFlags := s2.curAttrs.styleFlags ||| flags }

/-- `(*screen).resetStyle` from `terminal.go` (`&^`-style clear of bits,
complement taken on 32 bits as for Go `uint32`). -/
def Screen.resetStyle (s : Screen) (flags : Nat) : Screen :=
  let s2 := s.copyAttributes
  s2.setCur { s2.curAttrs with styleFlags := s2.curAttrs.styleFlags &&& (0xFFFFFFFF ^^^ flags) }

/-- `(*screen).setFg` from `terminal.go` (`none` is the Go `nil` color). -/
def Screen.setFg (s : Screen) (c : Option Color) : Screen :=
  let s2 := s.copyAttributes
  s2.setCur { s2.curAttrs with fg := c }

/-- `(*screen).setBg` from `terminal.go`. -/
def Screen.setBg (s : Screen) (c : Option Color) : Screen :=
  let s2 := s.copyAttributes
  s2.setCur { s2.curAttrs with bg := c }

/-- `(*screen).resetFg` from `terminal.go`. -/
def Screen.resetFg (s : Screen) : Screen := s.setFg none

/-- `(*screen).resetBg` from `terminal.go`. -/
def Screen.resetBg (s : Screen) : Screen := s.setBg none

/-- `(*screen).setURI` from `terminal.go`. -/
def Screen.setURI (s : Screen) (u : String) : Screen :=
  let s2 := s.copyAttributes
  s2.setCur { s2.curAttrs with uri := u }

/-- `(*screen).resetURI` from `terminal.go`. -/
def Screen.resetURI (s : Screen) : Screen :=
  let s2 := s.copyAttributes
  s2.setCur { s2.curAttrs with uri := "" }

/-! ## Dispatch handlers (`handlers.go`) -/

/-- A dispatch event emitted by the parser (the `dispatchHandler` interface
of `parser.go`).  Parameter and intermediate strings are byte lists. -/
inductive Event where
| printRune (r : Char)
| ctrl (c : Nat)
| esc (inters : List Nat) (finalByte : Nat)
| csi (ps : List (List Nat)) (inters : List Nat) (finalByte : Nat)
| osc (ps : List (List Nat))
| dcs (ps : List (List Nat)) (inters : List Nat) (finalByte : Nat)
deriving DecidableEq, Repr

/-- The `RichTextTerminal` state that the handlers touch: the screen, the
`upgraded` flag, and (instrumentation for the model) how many times the
upgrade hook has been invoked plus the list of dispatch events delivered. -/
structure Term where
  screen : Screen
  upgraded : Bool
  hookCalls : Nat
  trace : List Event
deriving DecidableEq, Repr

/-- A fresh terminal (`New` wires a fresh screen; no upgrade yet). -/
def initTerm : Term := ⟨initScreen, false, 0, []⟩

/-- `(*RichTextTerminal).upgrade` from `render.go`: set the `upgraded` flag
and invoke the upgrade hook (counted here). -/
def Term.upgrade (t : Term) : Term :=
  { t with upgraded := true, hookCalls := t.hookCalls + 1 }

/-- `(*RichTextTerminal).handleCtrl` from `handlers.go`.  `none` models a Go
panic (reachable through `backspace`). -/
def screenHandleCtrl (c : Nat) (s : Screen) : Option Screen :=
  if c = 0x09 then some (s.print '\t')
  else if c = 0x07 then some s
  else if c = 0x08 then some (s.left 1)
  else if c = 0x7F then s.backspace
  else if c = 0x0D then some s.cr
  else if c = 0x0A ∨ c = 0x0C ∨ c = 0x0B ∨ c = 0x85 then some s.newline
  else some s

/-- `(*RichTextTerminal).handleEsc` from `handlers.go` (only RIS acts). -/
def screenHandleEsc (inters : List Nat) (finalByte : Nat) (s : Screen) : Screen :=
  if inters = [] ∧ finalByte = 0x63 then s.newline.resetAttributes
  else s

/-- `(*RichTextTerminal).handleOSC` from `handlers.go`.  The recognized tags
`"0"`, `"7"`, `"133"`, `"633"`, `"1337"` are explicit no-op cases in the Go
switch; only `"8"` (hyperlink) acts. -/
def screenHandleOSC (ps : List (List Nat)) (s : Screen) : Screen :=
  match ps with
  | [] => s
  | p0 :: _ =>
    if p0 = [0x38] then
      if ps.length < 3 then s.resetURI
      else s.setURI (String.mk ((ps.getD 2 []).map Char.ofNat))
    else s

/-- Is the byte an ASCII decimal digit? -/
def isDigit (d : Nat) : Bool := decide (0x30 ≤ d ∧ d ≤ 0x39)

/-- Decimal value of a digit string. -/
def digitsVal (ds : List Nat) : Int :=
  ds.foldl (fun a d => a * 10 + ((d : Int) - 0x30)) 0

/-- Modelled from the spec: `strconv.Atoi` (Go standard library, not under
the sources) — base-10 integer parsing with optional sign, failing on empty
strings, non-digit characters, and 64-bit overflow. -/
def atoi (bs : List Nat) : Option Int :=
  match bs with
  | [] => none
  | c :: rest =>
    let p := if c = 0x2B then (false, rest)
             else if c = 0x2D then (true, rest)
             else (false, c :: rest)
    if p.2 = [] then none
    else if p.2.all isDigit then
      let v := digitsVal p.2
      let w := if p.1 then -v else v
      if w < -(2 ^ 63) ∨ 2 ^ 63 - 1 < w then none else some w
    else none

/-- The `convertParamsWithDefault` closure in `handleCSI` (`handlers.go`):
convert the parameters to integers in order, substituting `d` for empty
strings; `none` models the
`panic("CSI handler received non-integer param")` on the first bad one. -/
def convertParams (d : Int) : List (List Nat) → Option (List Int)
| [] => some []
| p :: rest =>
  match (if p = [] then some d else atoi p) with
  | none => none
  | some v => (convertParams d rest).map (fun vs => v :: vs)

/-- The `handleColorSeq` closure in `handleSGR` (`handlers.go`): extended
color for SGR 38/48.  First pattern is `len ≥ 5 && nParams[1] == 2`
(direct color, consuming 5), second is `len ≥ 3 && nParams[1] == 5`
(indexed color, consuming 3), otherwise consume 1. -/
def handleColorSeq (s : Screen) (setColor : Screen → Option Color → Screen) :
    List Int → Screen × Nat
| _ :: 2 :: r :: g :: b :: _ =>
    (setColor s (some (Color.rgb ((r % 256).toNat) ((g % 256).toNat) ((b % 256).toNat))), 5)
| _ :: 5 :: n :: _ => (setColor s (some (Color.ansi n)), 3)
| _ => (s, 1)

/-- `(*RichTextTerminal).handleSGR` from `handlers.go`: the switch on
`nParams[0]` (with early returns for 38/48) followed by the range switch for
30-37 / 40-47 / 90-97 / 100-107, returning the number of parameters
consumed.  `none` models the index panic on an empty vector, which the
caller's loop guard makes unreachable. -/
def handleSGR (s : Screen) : List Int → Option (Screen × Nat)
| [] => none
| p0 :: rest =>
  if p0 = 38 then some (handleColorSeq s Screen.setFg (p0 :: rest))
  else if p0 = 48 then some (handleColorSeq s Screen.setBg (p0 :: rest))
  else
    let s1 :=
      if p0 = 0 then s.resetAttributes
      else if p0 = 1 then s.setStyle Bold
      else if p0 = 2 then s.setStyle Dim
      else if p0 = 3 then s.setStyle Italic
      else if p0 = 4 then s.setStyle Underline
      else if p0 = 5 ∨ p0 = 6 then s.setStyle Blink
      else if p0 = 7 then s.setStyle Inverted
      else if p0 = 8 then s.setStyle Hidden
      else if p0 = 9 then s.setStyle Strikethrough
      else if p0 = 21 then s.resetStyle Bold
      else if p0 = 22 then s.resetStyle Dim
      else if p0 = 23 then s.resetStyle Italic
      else if p0 = 24 then s.resetStyle Underline
      else if p0 = 25 then s.resetStyle Blink
      else if p0 = 27 then s.resetStyle Inverted
      else if p0 = 28 then s.resetStyle Hidden
      else if p0 = 29 then s.resetStyle Strikethrough
      else if p0 = 39 then s.resetFg
      else if p0 = 49 then s.resetBg
      else if p0 = 73 then (s.setStyle Superscript).resetStyle Subscript
      else if p0 = 74 then (s.setStyle Subscript).resetStyle Superscript
      else if p0 = 75 then s.resetStyle (Superscript ||| Subscript)
      else s
    let s2 :=
      if 30 ≤ p0 ∧ p0 ≤ 37 then s1.setFg (some (Color.ansi (p0 - 30)))
      else if 40 ≤ p0 ∧ p0 ≤ 47 then s1.setBg (some (Color.ansi (p0 - 40)))
      else if 90 ≤ p0 ∧ p0 ≤ 97 then s1.setFg (some (Color.ansi (p0 - 90 + 8)))
      else if 100 ≤ p0 ∧ p0 ≤ 107 then s1.setBg (some (Color.ansi (p0 - 100 + 8)))
      else s1
    some (s2, 1)

theorem handleColorSeq_pos (s : Screen) (f : Screen → Option Color → Screen)
    (nps : List Int) : 1 ≤ (handleColorSeq s f nps).2 := by
  unfold handleColorSeq
  split <;> omega

theorem handleSGR_pos (s : Screen) (nps : List Int) (r : Screen × Nat)
    (h : handleSGR s nps = some r) : 1 ≤ r.2 := by
  cases nps with
  | nil =>
    rw [handleSGR] at h
    exact Option.noConfusion h
  | cons p0 rest =>
    rw [handleSGR] at h
    by_cases h38 : p0 = 38
    · rw [if_pos h38] at h
      injection h with h1
      rw [← h1]
      exact handleColorSeq_pos ..
    · rw [if_neg h38] at h
      by_cases h48 : p0 = 48
      · rw [if_pos h48] at h
        injection h with h1
        rw [← h1]
        exact handleColorSeq_pos ..
      · rw [if_neg h48] at h
        injection h with h1
        rw [← h1]

/-- The SGR consumption loop in `handleCSI` (`handlers.go`):
`for len(nParams) > 0 { handled := handleSGR(nParams); nParams = nParams[handled:] }`. -/
def sgrLoop (s : Screen) (nps : List Int) : Option Screen :=
  if hn : nps = [] then some s
  else
    match hh : handleSGR s nps with
    | none => none
    | some (s', h) => sgrLoop s' (nps.drop h)
termination_by nps.length
decreasing_by
  have h1 := handleSGR_pos s nps (s', h) hh
  have h2 : 0 < nps.length := List.length_pos.mpr hn
  simp only [List.length_drop]
  omega

/-- `(*RichTextTerminal).handleCSI` from `handlers.go`.  `none` models the
panics (nil/empty parameter vector, non-integer parameter, out-of-range
screen indexing).  Note the `case 'h'` branch sits inside the
`intermediates == ""` arm yet tests `intermediates == "?"`, exactly as in
the source. -/
def termHandleCSIMain (t : Term) (ps : List (List Nat)) (inters : List Nat)
    (fb : Nat) : Option Term :=
  if inters = [] then
    if fb = 0x43 then  -- 'C' Cursor Forward (CUF)
      (convertParams 1 ps).bind fun np =>
        match np with
        | n0 :: _ => some { t with screen := t.screen.right n0 }
        | [] => none
    else if fb = 0x44 then  -- 'D' Cursor Backward (CUB)
      (convertParams 1 ps).bind fun np =>
        match np with
        | n0 :: _ => some { t with screen := t.screen.left n0 }
        | [] => none
    else if fb = 0x45 then  -- 'E' Cursor Next Line (CNL)
      (convertParams 1 ps).bind fun np =>
        match np with
        | n0 :: _ => some { t with screen := t.screen.newlines n0 }
        | [] => none
    else if fb = 0x4A ∨ fb = 0x4B then  -- 'J' ED falls through to 'K' EL
      (convertParams 0 ps).bind fun np =>
        match np with
        | n0 :: _ =>
          if n0 = 0 then (t.screen.clearRight).map fun sc => { t with screen := sc }
          else if n0 = 1 then (t.screen.clearLeft).map fun sc => { t with screen := sc }
          else if n0 = 2 then some { t with screen := t.screen.clear }
          else some t
        | [] => none
    else if fb = 0x47 then  -- 'G' Cursor Horizontal Absolute (CHA)
      (convertParams 1 ps).bind fun np =>
        match np with
        | n0 :: _ => some { t with screen := t.screen.setPos 0 (n0 - 1) }
        | [] => none
    else if fb = 0x48 then  -- 'H' Cursor Position (CUP)
      (convertParams 1 ps).bind fun np =>
        match (if ps.length = 1 then np ++ [1] else np) with
        | n0 :: n1 :: _ => some { t with screen := t.screen.setPos (n0 - 1) (n1 - 1) }
        | _ => none
    else if fb = 0x68 then  -- 'h' Set Mode (SM); inner test kept exactly as in Go
      (convertParams 0 ps).bind fun np =>
        some (if inters = [0x3F] then
                np.foldl (fun acc p => if p = 47 ∨ p = 1049 then acc.upgrade else acc) t
              else t)
    else if fb = 0x6D then  -- 'm' Select Graphic Rendition (SGR)
      (convertParams 0 ps).bind fun np =>
        (sgrLoop t.screen np).bind fun sc => some { t with screen := sc }
    else some t
  else some t

def termHandleCSI (t : Term) (ps : List (List Nat)) (inters : List Nat)
    (fb : Nat) : Option Term :=
  if ps = [] then none
  else
    (termHandleCSIMain t ps inters fb).bind fun t1 =>
      some (if inters = [0x21] ∧ fb = 0x70 then  -- "!" 'p' Soft Terminal Reset
              { t1 with screen := t1.screen.resetAttributes }
            else t1)

/-- One dispatch event delivered to the terminal's handlers (recorded in the
trace); `none` models a Go panic inside the handler. -/
def dispatchEvent (t : Term) (e : Event) : Option Term :=
  let t0 := { t with trace := t.trace ++ [e] }
  match e with
  | .printRune r => some { t0 with screen := t0.screen.print r }
  | .ctrl c => (screenHandleCtrl c t0.screen).map fun sc => { t0 with screen := sc }
  | .esc i f => some { t0 with screen := screenHandleEsc i f t0.screen }
  | .csi ps i f => termHandleCSI t0 ps i f
  | .osc ps => some { t0 with screen := screenHandleOSC ps t0.screen }
  | .dcs _ _ _ => some t0

/-- Deliver a list of dispatch events in order. -/
def processEvents (t : Term) (evs : List Event) : Option Term :=
  List.foldlM dispatchEvent t evs

/-! ## Parser (`parser.go`)

The byte-level state machine.  Loops that consume one byte per iteration are
structural recursions on the input list; `parseOutput` (whose rune decoding
consumes one to four bytes) and the `Continue`/`Run` driver loops (which can
put a byte back) take a fuel argument, with fuel exhaustion reported as a
distinguished outcome. -/

/-- `ctrlCode` from `parser.go`. -/
def ctrlCode (c : Nat) : Bool := decide (c ≤ 0x1F ∧ c ≠ 0x18 ∧ c ≠ 0x1A ∧ c ≠ 0x1B)

/-- `terminatingCtrlCode` from `parser.go`. -/
def terminatingCtrlCode (c : Nat) : Bool := decide (c = 0x18 ∨ c = 0x1A)

/-- `graphicalCode` from `parser.go` (includes DEL). -/
def graphicalCode (c : Nat) : Bool := decide (0x20 ≤ c)

/-- The parser's scratch collections (`parser.go`): the byte buffer of the
parameter being assembled, the completed parameter strings, and the
intermediate bytes. -/
structure Scratch where
  paramBuf : List Nat
  paramsAcc : List (List Nat)
  intersBuf : List Nat
deriving DecidableEq, Repr

/-- `(*parser).clear` from `parser.go`. -/
def Scratch.clear (_sc : Scratch) : Scratch := ⟨[], [], []⟩

/-- An empty scratch (a fresh parser's buffers). -/
def initScratch : Scratch := ⟨[], [], []⟩

/-- `(*parser).collectIntermediate` from `parser.go`. -/
def Scratch.collectIntermediate (sc : Scratch) (c : Nat) : Scratch :=
  { sc with intersBuf := sc.intersBuf ++ [c] }

/-- `(*parser).collectParam` from `parser.go`: a `';'` pushes the assembled
parameter and resets the buffer, any other byte is appended. -/
def Scratch.collectParam (sc : Scratch) (c : Nat) : Scratch :=
  if c = 0x3B then { sc with paramsAcc := sc.paramsAcc ++ [sc.paramBuf], paramBuf := [] }
  else { sc with paramBuf := sc.paramBuf ++ [c] }

/-- `(*parser).params` from `parser.go`: the vector handed to dispatch. -/
def Scratch.paramsOf (sc : Scratch) : List (List Nat) := sc.paramsAcc ++ [sc.paramBuf]

/-- `(*parser).intermediates` from `parser.go`. -/
def Scratch.intermediatesOf (sc : Scratch) : List Nat := sc.intersBuf

/-- The parser states (the state functions of `parser.go` as tags). -/
inductive PState where
| output | escape | escapeIntermediate | oscString
| csiEntry | csiParam | csiIntermediate | csiIgnore
| dcsEntry | dcsParam | dcsIntermediate | dcsPassthrough
| ignoreAll
deriving DecidableEq, Repr

/-- Is the byte a UTF-8 continuation byte? -/
def contByte (b : Nat) : Bool := decide (0x80 ≤ b ∧ b ≤ 0xBF)

/-- Modelled from the spec: UTF-8 decoding of one scalar (Go standard
library `bufio.ReadRune`/`utf8.DecodeRune`, not under the sources; §6 of the
spec requires decoding scalars of up to 4 bytes).  Given the first byte and
the following input, returns the code point and how many EXTRA bytes beyond
the first are consumed; malformed input yields U+FFFD consuming only the
first byte. -/
def decodeRune (c : Nat) (rest : List Nat) : Nat × Nat :=
  if c < 0x80 then (c, 0)
  else if 0xC2 ≤ c ∧ c ≤ 0xDF then
    match rest with
    | b1 :: _ =>
      if contByte b1 then (((c &&& 0x1F) <<< 6) ||| (b1 &&& 0x3F), 1) else (0xFFFD, 0)
    | _ => (0xFFFD, 0)
  else if 0xE0 ≤ c ∧ c ≤ 0xEF then
    match rest with
    | b1 :: b2 :: _ =>
      if ((if c = 0xE0 then decide (0xA0 ≤ b1 ∧ b1 ≤ 0xBF)
           else if c = 0xED then decide (0x80 ≤ b1 ∧ b1 ≤ 0x9F)
           else contByte b1) && contByte b2) then
        (((c &&& 0x0F) <<< 12) ||| ((b1 &&& 0x3F) <<< 6) ||| (b2 &&& 0x3F), 2)
      else (0xFFFD, 0)
    | _ => (0xFFFD, 0)
  else if 0xF0 ≤ c ∧ c ≤ 0xF4 then
    match rest with
    | b1 :: b2 :: b3 :: _ =>
      if ((if c = 0xF0 then decide (0x90 ≤ b1 ∧ b1 ≤ 0xBF)
           else if c = 0xF4 then decide (0x80 ≤ b1 ∧ b1 ≤ 0x8F)
           else contByte b1) && contByte b2 && contByte b3) then
        (((c &&& 0x07) <<< 18) ||| ((b1 &&& 0x3F) <<< 12) ||| ((b2 &&& 0x3F) <<< 6) ||| (b3 &&& 0x3F), 3)
      else (0xFFFD, 0)
    | _ => (0xFFFD, 0)
  else (0xFFFD, 0)

/-- The error-ish part of a Go state function's `(state, error)` return:
`nil`, `parserPaused`, a read error (end of input), or fuel exhaustion of
the model. -/
inductive PSig where
| nil | paused | ioEOF | fuelOut
deriving DecidableEq, Repr

/-- Result of one Go state-function call: remaining input, updated scratch
and terminal, the returned next state (`none` is Go's `nil`), and the
returned error class. -/
structure StepOut where
  input : List Nat
  scratch : Scratch
  term : Term
  next : Option PState
  sig : PSig
deriving DecidableEq, Repr

/-- `parseOutput` from `parser.go` (the "ground" state loop).  Fuelled
because one iteration can consume up to four bytes. -/
def parseOutput : Nat → Scratch → Term → List Nat → Option StepOut
| 0, sc, t, input => some ⟨input, sc, t, some .output, .fuelOut⟩
| f + 1, sc, t, input =>
  match input with
  | [] => some ⟨[], sc, t, none, .ioEOF⟩
  | c :: rest =>
    if c = 0x7F then
      (dispatchEvent t (.ctrl c)).bind fun t' =>
        some ⟨rest, sc, t', some .output, .paused⟩
    else if graphicalCode c then
      let d := decodeRune c rest
      (dispatchEvent t (.printRune (Char.ofNat d.1))).bind fun t' =>
        parseOutput f sc t' (rest.drop d.2)
    else some ⟨c :: rest, sc, t, some .output, .paused⟩

/-- `parseEscape` from `parser.go`. -/
def parseEscape (sc : Scratch) (t : Term) (input : List Nat) : Option StepOut :=
  match input with
  | [] => some ⟨[], sc, t, none, .ioEOF⟩
  | c :: rest =>
    let low := c &&& 0x7F
    if c = 0x7F then some ⟨rest, sc, t, some .escape, .nil⟩
    else if 0x20 ≤ c ∧ c ≤ 0x2F then
      some ⟨rest, (sc.clear).collectIntermediate c, t, some .escapeIntermediate, .nil⟩
    else if low = 0x50 then some ⟨rest, sc, t, some .dcsEntry, .nil⟩
    else if low = 0x5B then some ⟨rest, sc, t, some .csiEntry, .nil⟩
    else if low = 0x5D then some ⟨rest, sc, t, some .oscString, .nil⟩
    else if low = 0x58 ∨ low = 0x5E ∨ low = 0x5F then some ⟨rest, sc, t, some .ignoreAll, .nil⟩
    else if low = 0x5C then some ⟨rest, sc, t, some .output, .nil⟩
    else if 0x40 ≤ c ∧ c ≤ 0x5F then
      (dispatchEvent t (.ctrl (c + 0x40))).bind fun t' =>
        some ⟨rest, sc, t', some .output, .paused⟩
    else if 0x30 ≤ c ∧ c ≤ 0x7E then
      (dispatchEvent t (.esc [] c)).bind fun t' =>
        some ⟨rest, sc, t', some .output, .paused⟩
    else some ⟨c :: rest, sc, t, some .escape, .nil⟩

/-- `parseEscapeIntermediate` from `parser.go`. -/
def parseEscapeIntermediate (sc : Scratch) (t : Term) (input : List Nat) : Option StepOut :=
  match input with
  | [] => some ⟨[], sc, t, none, .ioEOF⟩
  | c :: rest =>
    if c = 0x7F then some ⟨rest, sc, t, some .escapeIntermediate, .nil⟩
    else if 0x20 ≤ c ∧ c ≤ 0x2F then
      some ⟨rest, sc.collectIntermediate c, t, some .escapeIntermediate, .nil⟩
    else if 0x30 ≤ c ∧ c ≤ 0x7E then
      (dispatchEvent t (.esc sc.intermediatesOf c)).bind fun t' =>
        some ⟨rest, sc, t', some .output, .paused⟩
    else some ⟨c :: rest, sc, t, some .escapeIntermediate, .nil⟩

/-- The read loop of `parseOSCString` from `parser.go`. -/
def oscLoop (sc : Scratch) (t : Term) : List Nat → Option StepOut
| [] => some ⟨[], sc, t, none, .ioEOF⟩
| c :: rest =>
  if c = 0x07 then
    (dispatchEvent t (.osc sc.paramsOf)).bind fun t' =>
      some ⟨rest, sc, t', some .output, .paused⟩
  else if ctrlCode c then oscLoop sc t rest
  else if graphicalCode c then oscLoop (sc.collectParam c) t rest
  else if c = 0x1B then
    (dispatchEvent t (.osc sc.paramsOf)).bind fun t' =>
      some ⟨rest, sc, t', some .escape, .paused⟩
  else
    (dispatchEvent t (.osc sc.paramsOf)).bind fun t' =>
      some ⟨c :: rest, sc, t', some .oscString, .paused⟩

/-- `parseOSCString` from `parser.go`: `clear` on entry, then the loop. -/
def parseOSCString (sc : Scratch) (t : Term) (input : List Nat) : Option StepOut :=
  oscLoop sc.clear t input

/-- `parseCSIEntry` from `parser.go`: `clear` on entry, one byte. -/
def parseCSIEntry (sc : Scratch) (t : Term) (input : List Nat) : Option StepOut :=
  let sc1 := sc.clear
  match input with
  | [] => some ⟨[], sc1, t, none, .ioEOF⟩
  | c :: rest =>
    if c = 0x7F then some ⟨rest, sc1, t, some .csiEntry, .nil⟩
    else if 0x20 ≤ c ∧ c ≤ 0x2F then
      some ⟨rest, sc1.collectIntermediate c, t, some .csiIntermediate, .nil⟩
    else if (0x30 ≤ c ∧ c ≤ 0x39) ∨ c = 0x3B then
      some ⟨rest, sc1.collectParam c, t, some .csiParam, .nil⟩
    else if 0x3C ≤ c ∧ c ≤ 0x3F then
      some ⟨rest, sc1.collectIntermediate c, t, some .csiParam, .nil⟩
    else if c = 0x3A then some ⟨rest, sc1, t, some .csiIgnore, .nil⟩
    else if 0x40 ≤ c ∧ c ≤ 0x7E then
      (dispatchEvent t (.csi [[]] [] c)).bind fun t' =>
        some ⟨rest, sc1, t', some .output, .paused⟩
    else some ⟨c :: rest, sc1, t, some .csiEntry, .nil⟩

/-- The read loop of `parseCSIParam` from `parser.go`. -/
def csiParamLoop (sc : Scratch) (t : Term) : List Nat → Option StepOut
| [] => some ⟨[], sc, t, none, .ioEOF⟩
| c :: rest =>
  if c = 0x7F then csiParamLoop sc t rest
  else if 0x20 ≤ c ∧ c ≤ 0x2F then
    some ⟨rest, sc.collectIntermediate c, t, some .csiIntermediate, .nil⟩
  else if (0x30 ≤ c ∧ c ≤ 0x39) ∨ c = 0x3B then csiParamLoop (sc.collectParam c) t rest
  else if c = 0x3A ∨ (0x3C ≤ c ∧ c ≤ 0x3F) then some ⟨rest, sc, t, some .csiIgnore, .nil⟩
  else if 0x40 ≤ c ∧ c ≤ 0x7E then
    (dispatchEvent t (.csi sc.paramsOf sc.intermediatesOf c)).bind fun t' =>
      some ⟨rest, sc, t', some .output, .paused⟩
  else some ⟨c :: rest, sc, t, some .csiParam, .nil⟩

/-- `parseCSIParam` from `parser.go`. -/
def parseCSIParam (sc : Scratch) (t : Term) (input : List Nat) : Option StepOut :=
  csiParamLoop sc t input

/-- The read loop of `parseCSIIntermediate` from `parser.go`. -/
def csiIntermediateLoop (sc : Scratch) (t : Term) : List Nat → Option StepOut
| [] => some ⟨[], sc, t, none, .ioEOF⟩
| c :: rest =>
  if c = 0x7F then csiIntermediateLoop sc t rest
  else if 0x20 ≤ c ∧ c ≤ 0x2F then csiIntermediateLoop (sc.collectIntermediate c) t rest
  else if 0x30 ≤ c ∧ c ≤ 0x3F then some ⟨rest, sc, t, some .csiIgnore, .nil⟩
  else if 0x40 ≤ c ∧ c ≤ 0x7E then
    (dispatchEvent t (.csi sc.paramsOf sc.intermediatesOf c)).bind fun t' =>
      some ⟨rest, sc, t', some .output, .paused⟩
  else some ⟨c :: rest, sc, t, some .csiIntermediate, .nil⟩

/-- `parseCSIIntermediate` from `parser.go`. -/
def parseCSIIntermediate (sc : Scratch) (t : Term) (input : List Nat) : Option StepOut :=
  csiIntermediateLoop sc t input

/-- The read loop of `parseCSIIgnore` from `parser.go` (works on
`low = c &^ 0x80`). -/
def csiIgnoreLoop (sc : Scratch) (t : Term) : List Nat → Option StepOut
| [] => some ⟨[], sc, t, none, .ioEOF⟩
| c :: rest =>
  let low := c &&& 0x7F
  if 0x20 ≤ low ∧ low ≤ 0x3F then csiIgnoreLoop sc t rest
  else if low = 0x7F then csiIgnoreLoop sc t rest
  else if 0x40 ≤ low ∧ low ≤ 0x7E then some ⟨rest, sc, t, some .output, .nil⟩
  else some ⟨c :: rest, sc, t, some .csiIgnore, .nil⟩

/-- `parseCSIIgnore` from `parser.go`. -/
def parseCSIIgnore (sc : Scratch) (t : Term) (input : List Nat) : Option StepOut :=
  csiIgnoreLoop sc t input

/-- `parseDCSEntry` from `parser.go`: `clear` on entry, one byte. -/
def parseDCSEntry (sc : Scratch) (t : Term) (input : List Nat) : Option StepOut :=
  let sc1 := sc.clear
  match input with
  | [] => some ⟨[], sc1, t, none, .ioEOF⟩
  | c :: rest =>
    if c = 0x7F then some ⟨rest, sc1, t, some .dcsEntry, .nil⟩
    else if ctrlCode c then some ⟨rest, sc1, t, some .dcsEntry, .nil⟩
    else if 0x20 ≤ c ∧ c ≤ 0x2F then
      some ⟨rest, sc1.collectIntermediate c, t, some .dcsIntermediate, .nil⟩
    else if (0x30 ≤ c ∧ c ≤ 0x39) ∨ c = 0x3B then
      some ⟨rest, sc1.collectParam c, t, some .dcsParam, .nil⟩
    else if 0x3C ≤ c ∧ c ≤ 0x3F then
      some ⟨rest, sc1.collectIntermediate c, t, some .dcsParam, .nil⟩
    else if c = 0x3A then some ⟨rest, sc1, t, some .ignoreAll, .nil⟩
    else if 0x40 ≤ c ∧ c ≤ 0x7E then
      some ⟨c :: rest, sc1, t, some .dcsPassthrough, .nil⟩
    else some ⟨c :: rest, sc1, t, some .dcsEntry, .nil⟩

/-- The read loop of `parseDCSIntermediate` from `parser.go` (its default
arm really does return `parseEscapeIntermediate`, as in the source). -/
def dcsIntermediateLoop (sc : Scratch) (t : Term) : List Nat → Option StepOut
| [] => some ⟨[], sc, t, none, .ioEOF⟩
| c :: rest =>
  if c = 0x7F then dcsIntermediateLoop sc t rest
  else if ctrlCode c then dcsIntermediateLoop sc t rest
  else if 0x20 ≤ c ∧ c ≤ 0x2F then dcsIntermediateLoop (sc.collectIntermediate c) t rest
  else if 0x30 ≤ c ∧ c ≤ 0x3F then some ⟨rest, sc, t, some .ignoreAll, .nil⟩
  else if 0x40 ≤ c ∧ c ≤ 0x7E then some ⟨c :: rest, sc, t, some .dcsPassthrough, .nil⟩
  else some ⟨c :: rest, sc, t, some .escapeIntermediate, .nil⟩

/-- `parseDCSIntermediate` from `parser.go`. -/
def parseDCSIntermediate (sc : Scratch) (t : Term) (input : List Nat) : Option StepOut :=
  dcsIntermediateLoop sc t input

/-- The read loop of `parseDCSParam` from `parser.go`. -/
def dcsParamLoop (sc : Scratch) (t : Term) : List Nat → Option StepOut
| [] => some ⟨[], sc, t, none, .ioEOF⟩
| c :: rest =>
  if c = 0x7F then dcsParamLoop sc t rest
  else if ctrlCode c then dcsParamLoop sc t rest
  else if 0x20 ≤ c ∧ c ≤ 0x2F then
    some ⟨rest, sc.collectIntermediate c, t, some .dcsIntermediate, .nil⟩
  else if (0x30 ≤ c ∧ c ≤ 0x39) ∨ c = 0x3B then dcsParamLoop (sc.collectParam c) t rest
  else if c = 0x3A ∨ (0x3C ≤ c ∧ c ≤ 0x3F) then some ⟨rest, sc, t, some .ignoreAll, .nil⟩
  else if 0x40 ≤ c ∧ c ≤ 0x7E then some ⟨c :: rest, sc, t, some .dcsPassthrough, .nil⟩
  else some ⟨c :: rest, sc, t, some .dcsParam, .nil⟩

/-- `parseDCSParam` from `parser.go`. -/
def parseDCSParam (sc : Scratch) (t : Term) (input : List Nat) : Option StepOut :=
  dcsParamLoop sc t input

/-- `parseDCSPassthrough` from `parser.go`: one byte as the DCS final,
dispatch `handleDSC`, then ignore everything. -/
def parseDCSPassthrough (sc : Scratch) (t : Term) (input : List Nat) : Option StepOut :=
  match input with
  | [] => some ⟨[], sc, t, none, .ioEOF⟩
  | c :: rest =>
    (dispatchEvent t (.dcs sc.paramsOf sc.intermediatesOf c)).bind fun t' =>
      some ⟨rest, sc, t', some .ignoreAll, .nil⟩

/-- The read loop of `parseIgnoreAll` from `parser.go`. -/
def ignoreAllLoop (sc : Scratch) (t : Term) : List Nat → Option StepOut
| [] => some ⟨[], sc, t, none, .ioEOF⟩
| c :: rest =>
  if ctrlCode c then ignoreAllLoop sc t rest
  else if graphicalCode c then ignoreAllLoop sc t rest
  else some ⟨c :: rest, sc, t, some .ignoreAll, .nil⟩

/-- `parseIgnoreAll` from `parser.go`. -/
def parseIgnoreAll (sc : Scratch) (t : Term) (input : List Nat) : Option StepOut :=
  ignoreAllLoop sc t input

/-- Run one state function (`p.state(p)`). -/
def stateStep (fuel : Nat) : PState → Scratch → Term → List Nat → Option StepOut
| .output => parseOutput fuel
| .escape => parseEscape
| .escapeIntermediate => parseEscapeIntermediate
| .oscString => parseOSCString
| .csiEntry => parseCSIEntry
| .csiParam => parseCSIParam
| .csiIntermediate => parseCSIIntermediate
| .csiIgnore => parseCSIIgnore
| .dcsEntry => parseDCSEntry
| .dcsParam => parseDCSParam
| .dcsIntermediate => parseDCSIntermediate
| .dcsPassthrough => parseDCSPassthrough
| .ignoreAll => parseIgnoreAll

/-- How one `Continue` call ended: `nil` error (pause or terminating control
code), read error (EOF), the undefined-transition error, or model fuel
exhaustion. -/
inductive CCode where
| cnil | ceof | cundef | cfuel
deriving DecidableEq, Repr

/-- Result of `(*parser).Continue`. -/
structure ContOut where
  state : Option PState
  scratch : Scratch
  term : Term
  input : List Nat
  code : CCode
deriving DecidableEq, Repr

/-- The loop of `(*parser).Continue` from `parser.go`: the common
transitions on the byte just read, the infinite-loop (undefined transition)
check against `lastState`, then the current state function; a `parserPaused`
return means `Continue` returns `nil`. -/
def contLoop : Nat → Option PState → Option PState → Scratch → Term → List Nat → Option ContOut
| 0, st, _, sc, t, input => some ⟨st, sc, t, input, .cfuel⟩
| f + 1, st, last, sc, t, input =>
  match st with
  | none => some ⟨none, sc, t, input, .cnil⟩
  | some cur =>
    match input with
    | [] => some ⟨some cur, sc, t, [], .ceof⟩
    | c :: rest =>
      if ctrlCode c then
        (dispatchEvent t (.ctrl c)).bind fun t' =>
          (stateStep f cur sc t' rest).bind fun so =>
            match so.sig with
            | .paused => some ⟨so.next, so.scratch, so.term, so.input, .cnil⟩
            | .ioEOF => some ⟨so.next, so.scratch, so.term, so.input, .ceof⟩
            | .fuelOut => some ⟨so.next, so.scratch, so.term, so.input, .cfuel⟩
            | .nil => contLoop f so.next (some cur) so.scratch so.term so.input
      else if terminatingCtrlCode c then
        (dispatchEvent t (.ctrl c)).bind fun t' =>
          some ⟨some cur, sc, t', rest, .cnil⟩
      else if c = 0x1B then
        (stateStep f .escape sc t rest).bind fun so =>
          match so.sig with
          | .paused => some ⟨so.next, so.scratch, so.term, so.input, .cnil⟩
          | .ioEOF => some ⟨so.next, so.scratch, so.term, so.input, .ceof⟩
          | .fuelOut => some ⟨so.next, so.scratch, so.term, so.input, .cfuel⟩
          | .nil => contLoop f so.next (some .escape) so.scratch so.term so.input
      else if 0x80 ≤ c ∧ c < 0xC0 then
        (stateStep f cur sc t rest).bind fun so =>
          match so.sig with
          | .paused => some ⟨so.next, so.scratch, so.term, so.input, .cnil⟩
          | .ioEOF => some ⟨so.next, so.scratch, so.term, so.input, .ceof⟩
          | .fuelOut => some ⟨so.next, so.scratch, so.term, so.input, .cfuel⟩
          | .nil => contLoop f so.next (some cur) so.scratch so.term so.input
      else if some cur = last then some ⟨some cur, sc, t, c :: rest, .cundef⟩
      else
        (stateStep f cur sc t (c :: rest)).bind fun so =>
          match so.sig with
          | .paused => some ⟨so.next, so.scratch, so.term, so.input, .cnil⟩
          | .ioEOF => some ⟨so.next, so.scratch, so.term, so.input, .ceof⟩
          | .fuelOut => some ⟨so.next, so.scratch, so.term, so.input, .cfuel⟩
          | .nil => contLoop f so.next (some cur) so.scratch so.term so.input

/-- `(*parser).Continue` (`lastState` starts out `nil`). -/
def Continue (fuel : Nat) (st : Option PState) (sc : Scratch) (t : Term)
    (input : List Nat) : Option ContOut :=
  contLoop fuel st none sc t input

/-- Why `(*RichTextTerminal).Run` stopped. -/
inductive StopR where
| stopUpgraded | stopEOF | stopLogged | stopFuel
deriving DecidableEq, Repr

/-- Final state of a `Run`. -/
structure RunOut where
  state : Option PState
  scratch : Scratch
  term : Term
  input : List Nat
  stop : StopR
deriving DecidableEq, Repr

/-- The loop of `(*RichTextTerminal).Run` from `terminal.go`: return at once
when `upgraded` is set, otherwise `Continue`; EOF/EIO errors are quiet,
other errors are logged, both end the loop. -/
def runLoop : Nat → Option PState → Scratch → Term → List Nat → Option RunOut
| 0, st, sc, t, input => some ⟨st, sc, t, input, .stopFuel⟩
| f + 1, st, sc, t, input =>
  if t.upgraded then some ⟨st, sc, t, input, .stopUpgraded⟩
  else
    (Continue (f + 1) st sc t input).bind fun co =>
      match co.code with
      | .cnil => runLoop f co.state co.scratch co.term co.input
      | .ceof => some ⟨co.state, co.scratch, co.term, co.input, .stopEOF⟩
      | .cundef => some ⟨co.state, co.scratch, co.term, co.input, .stopLogged⟩
      | .cfuel => some ⟨co.state, co.scratch, co.term, co.input, .stopFuel⟩

/-- Feed a byte stream to a freshly constructed terminal (`New` + `Run`):
initial state `parseOutput`, empty scratch, fresh screen.  `none` models a
Go panic during some dispatch. -/
def processBytes (fuel : Nat) (input : List Nat) : Option RunOut :=
  runLoop fuel (some .output) initScratch initTerm input

/-! ## Renderer (`render.go`) -/

/-- Lowercase hex digit. -/
def hexDigit (n : Nat) : Char :=
  if n < 10 then Char.ofNat (0x30 + n) else Char.ofNat (0x61 + (n - 10))

/-- Two lowercase hex digits of a byte. -/
def hex2 (n : Nat) : String := String.mk [hexDigit (n / 16 % 16), hexDigit (n % 16)]

/-- Modelled from the spec: `HTMLColorCode` of the `Color` implementations
(their file is not among the sources).  Direct colors use `#RRGGBB`;
indexed colors use the standard ANSI 256-color palette (0-15 named table,
16-231 the 6x6x6 cube, 232-255 the grayscale ramp), per §4.4 and the
glossary, with palette entry 1 being `#800000` as pinned by §8. -/
def Color.HTMLColorCode : Color → String
| .rgb r g b => "#" ++ hex2 (r % 256) ++ hex2 (g % 256) ++ hex2 (b % 256)
| .ansi n =>
  let i := (n % 256).toNat
  if i < 16 then
    let base : List (Nat × Nat × Nat) :=
      [(0, 0, 0), (128, 0, 0), (0, 128, 0), (128, 128, 0),
       (0, 0, 128), (128, 0, 128), (0, 128, 128), (192, 192, 192),
       (128, 128, 128), (255, 0, 0), (0, 255, 0), (255, 255, 0),
       (0, 0, 255), (255, 0, 255), (0, 255, 255), (255, 255, 255)]
    let e := base.getD i (0, 0, 0)
    "#" ++ hex2 e.1 ++ hex2 e.2.1 ++ hex2 e.2.2
  else if i < 232 then
    let k := i - 16
    let comp := fun (v : Nat) => if v = 0 then 0 else 55 + 40 * v
    "#" ++ hex2 (comp (k / 36)) ++ hex2 (comp (k / 6 % 6)) ++ hex2 (comp (k % 6))
  else
    let g := 8 + 10 * (i - 232)
    "#" ++ hex2 g ++ hex2 g ++ hex2 g

/-- Modelled from the spec: Go standard library `html.EscapeString` applied
to a single rune — escapes the five special characters `&`, `'`, `<`, `>`,
`"` and leaves everything else alone (§4.4: "Runes are HTML-escaped"). -/
def escapeChar (c : Char) : String :=
  if c = '&' then "&amp;"
  else if c = Char.ofNat 39 then "&#39;"
  else if c = '<' then "&lt;"
  else if c = '>' then "&gt;"
  else if c = Char.ofNat 34 then "&#34;"
  else String.singleton c

/-- `html.EscapeString` over a whole string (used for anchor hrefs). -/
def escapeString (s : String) : String :=
  String.join (s.data.map escapeChar)

/-- The `openTags` closure in `renderLine` (`render.go`): anchor when the
URI is non-empty, then a span with the styled CSS when the bundle is
non-empty. -/
def openTags (attr : StyleAttributes) : String :=
  (if attr.uri ≠ "" then "<a href=\"" ++ escapeString attr.uri ++ "\">" else "") ++
  (if attr.Empty then "" else
    "<span style=\"" ++
    (if attr.hasStyle Bold then "font-weight:bold;" else "") ++
    (if attr.hasStyle Italic then "font-style:italic;" else "") ++
    (if attr.hasStyle Underline then "text-decoration:underline;" else "") ++
    (if attr.hasStyle Hidden then "visibility:hidden;" else "") ++
    (match attr.fg with
     | some col => "color:" ++ col.HTMLColorCode ++ ";"
     | none => "") ++
    (match attr.bg with
     | some col => "background-color:" ++ col.HTMLColorCode ++ ";"
     | none => "") ++
    "\">")

/-- The `closeTags` closure in `renderLine` (`render.go`). -/
def closeTags (attr : StyleAttributes) : String :=
  (if attr.Empty then "" else "</span>") ++ (if attr.uri ≠ "" then "</a>" else "")

/-- The loop of `renderLine` (`render.go`), carrying `prevAttr`.  The Go
`Equals` comparison (pointer or structural equality) is structural equality
of the referenced bundles. -/
def renderLineAux (store : List StyleAttributes) (prev : StyleAttributes) :
    List Node → String
| [] => closeTags prev
| n :: rest =>
  let cur := store.getD n.attrs defaultAttrs
  if cur = prev then escapeChar n.r ++ renderLineAux store prev rest
  else closeTags prev ++ openTags cur ++ escapeChar n.r ++ renderLineAux store cur rest

/-- `renderLine` from `render.go`: `prevAttr` starts as a fresh empty
bundle. -/
def renderLine (store : List StyleAttributes) (line : List Node) : String :=
  renderLineAux store defaultAttrs line

/-- `(*screen).Lines` from `render.go`: rendered scrollback followed by the
rendered active line. -/
def Screen.Lines (s : Screen) : List String :=
  (s.scrollback ++ [s.activeLine]).map (renderLine s.store)

/-! ## Claims -/

/-- C8: the parameter vector emitted at dispatch time is
`partialParams ++ [partialParam]`; a fresh (cleared) scratch emits `[""]`;
a trailing semicolon contributes a trailing empty element. -/
theorem c8_params_vector :
    (∀ sc : Scratch, sc.paramsOf = sc.paramsAcc ++ [sc.paramBuf]) ∧
    initScratch.paramsOf = [[]] ∧
    (∀ sc : Scratch, (sc.collectParam 0x3B).paramsOf = sc.paramsOf ++ [[]]) := by
  refine ⟨fun sc => rfl, rfl, fun sc => ?_⟩
  simp [Scratch.collectParam, Scratch.paramsOf]

/-- The spec's description of the rendering of an all-defaults line: just
the concatenation of the HTML-escaped runes. -/
def specEscapedConcat : List Node → String
| [] => ""
| n :: rest => escapeChar n.r ++ specEscapedConcat rest

theorem renderLineAux_default (store : List StyleAttributes) :
    ∀ line : List Node, (∀ n ∈ line, store.getD n.attrs defaultAttrs = defaultAttrs) →
      renderLineAux store defaultAttrs line = specEscapedConcat line := by
  intro line
  induction line with
  | nil =>
    intro _
    rfl
  | cons n rest ih =>
    intro h
    have hn := h n (List.mem_cons_self n rest)
    have hrest : ∀ m ∈ rest, store.getD m.attrs defaultAttrs = defaultAttrs :=
      fun m hm => h m (List.mem_cons_of_mem n hm)
    rw [renderLineAux, specEscapedConcat]
    rw [show (store.getD n.attrs defaultAttrs) = defaultAttrs from hn]
    rw [if_pos rfl, ih hrest]

/-- C10: a line all of whose nodes reference a bundle equal to the
all-defaults bundle renders to exactly the concatenation of the
HTML-escaped runes (no `<span>`, no `<a>`), and the empty line renders to
the empty string. -/
theorem c10_default_line_renders_plain (store : List StyleAttributes)
    (line : List Node)
    (h : ∀ n ∈ line, store.getD n.attrs defaultAttrs = defaultAttrs) :
    renderLine store line = specEscapedConcat line ∧ renderLine store [] = "" := by
  exact ⟨renderLineAux_default store line h, rfl⟩

/-- C10 witness. -/
theorem c10_witness :
    renderLine [defaultAttrs] [⟨'a', 0⟩] = specEscapedConcat [⟨'a', 0⟩] ∧
    renderLine [defaultAttrs] [] = "" :=
  c10_default_line_renders_plain [defaultAttrs] [⟨'a', 0⟩] (by decide)

/-- A concrete screen: active line `AB`, cursor between the two cells. -/
def c5Screen : Screen := ⟨[], [⟨'A', 0⟩, ⟨'B', 0⟩], 1, [defaultAttrs], 0⟩

/-- C5 counterexample: dispatching DEL does NOT delete the cell at index
`pos` of the active line (it deletes the cell at `pos - 1`): on the line
`AB` with `pos = 1`, the result is `B`, not `A`. -/
theorem c5_counterexample :
    (screenHandleCtrl 0x7F c5Screen).map Screen.activeLine ≠
      some (c5Screen.activeLine.eraseIdx c5Screen.pos) := by
  decide

/-- C5 amended: dispatching DEL through `handleCtrl` calls `backspace`,
which (when `1 ≤ pos ≤ len`) removes the cell at index `pos - 1` — the
character BEFORE the cursor — and decrements `pos`. -/
theorem c5_del_deletes_before_cursor (s : Screen) (h1 : 1 ≤ s.pos)
    (h2 : s.pos ≤ s.activeLine.length) :
    screenHandleCtrl 0x7F s =
      some { s with activeLine := s.activeLine.take (s.pos - 1) ++ s.activeLine.drop s.pos,
                    pos := s.pos - 1 } := by
  have hlen : ¬s.activeLine.length = 0 := by omega
  simp [screenHandleCtrl, Screen.backspace, hlen, h1, h2]

/-- C5 witness. -/
theorem c5_witness :
    screenHandleCtrl 0x7F c5Screen =
      some { c5Screen with
              activeLine := c5Screen.activeLine.take (c5Screen.pos - 1) ++
                            c5Screen.activeLine.drop c5Screen.pos,
              pos := c5Screen.pos - 1 } :=
  c5_del_deletes_before_cursor c5Screen (by decide) (by decide)

/-- A concrete screen whose cursor sits before existing text: line `A`,
`pos = 0`. -/
def c2Screen : Screen := ⟨[], [⟨'A', 0⟩], 0, [defaultAttrs], 0⟩

/-- C2 counterexample: with `pos = 0` on the line `A` and `y = 2 > 1`,
`setPos(_, 2)` leaves a line of length 1 (not 2) and overwrites the
existing cell with a space, because the padding loop goes through `print`,
which writes at `pos`. -/
theorem c2_counterexample :
    ¬ ((c2Screen.setPos 0 2).activeLine.length = 2 ∧
       (c2Screen.setPos 0 2).activeLine[0]? = c2Screen.activeLine[0]?) := by
  decide

theorem padN_appends (n : Nat) :
    ∀ s : Screen, s.activeLine.length ≤ s.pos →
      (s.padN n).activeLine =
        s.activeLine ++ List.replicate n (⟨' ', s.activeAttributes⟩ : Node) ∧
      (s.padN n).pos = s.pos + n ∧
      (s.padN n).store = s.store ∧
      (s.padN n).activeAttributes = s.activeAttributes := by
  induction n with
  | zero =>
    intro s _
    simp [Screen.padN]
  | succ k ih =>
    intro s hp
    have hnotlt : ¬s.pos < s.activeLine.length := by omega
    have hstep : s.print ' ' =
        { s with activeLine := s.activeLine ++ [⟨' ', s.activeAttributes⟩],
                 pos := s.pos + 1 } := by
      rw [Screen.print, if_neg hnotlt]
    have hp' : (s.print ' ').activeLine.length ≤ (s.print ' ').pos := by
      rw [hstep]
      simp
      omega
    obtain ⟨hA, hB, hC, hD⟩ := ih (s.print ' ') hp'
    rw [hstep] at hA hB hC hD
    rw [Screen.padN, hstep]
    refine ⟨?_, ?_, ?_, ?_⟩
    · rw [hA]
      simp [List.replicate_succ]
    · rw [hB]
      simp
      omega
    · rw [hC]
    · rw [hD]

/-- C2 amended: the claimed behaviour of `setPos(_, y)` with
`y > len(activeLine)` — the line is extended to length `y` with space-nodes
referencing the current attribute bundle, the existing cells are unchanged,
`pos = y`, and no bundle in the store is touched — holds provided the
cursor is not inside the line, i.e. `pos ≥ len(activeLine)`. -/
theorem c2_setPos_pads (s : Screen) (x y : Int)
    (hp : s.activeLine.length ≤ s.pos) (hy : (s.activeLine.length : Int) < y) :
    (s.setPos x y).activeLine =
      s.activeLine ++ List.replicate (y.toNat - s.activeLine.length)
        (⟨' ', s.activeAttributes⟩ : Node) ∧
    (s.setPos x y).activeLine.length = y.toNat ∧
    (s.setPos x y).pos = y.toNat ∧
    (s.setPos x y).store = s.store := by
  have hy0 : ¬y < 0 := by omega
  have hcnt : (y - (s.activeLine.length : Int)).toNat = y.toNat - s.activeLine.length := by
    omega
  obtain ⟨hA, _, hC, _⟩ := padN_appends (y - (s.activeLine.length : Int)).toNat s hp
  rw [Screen.setPos, if_neg hy0]
  refine ⟨?_, ?_, rfl, ?_⟩
  · show (s.padN (y - (s.activeLine.length : Int)).toNat).activeLine = _
    rw [← hcnt]
    exact hA
  · show (s.padN (y - (s.activeLine.length : Int)).toNat).activeLine.length = y.toNat
    rw [hA]
    simp
    omega
  · show (s.padN (y - (s.activeLine.length : Int)).toNat).store = s.store
    exact hC

/-- C2 witness. -/
theorem c2_witness :
    (initScreen.setPos 0 3).activeLine =
      initScreen.activeLine ++ List.replicate ((3 : Int).toNat - initScreen.activeLine.length)
        (⟨' ', initScreen.activeAttributes⟩ : Node) ∧
    (initScreen.setPos 0 3).activeLine.length = (3 : Int).toNat ∧
    (initScreen.setPos 0 3).pos = (3 : Int).toNat ∧
    (initScreen.setPos 0 3).store = initScreen.store :=
  c2_setPos_pads initScreen 0 3 (by decide) (by decide)

/-- C3: `backspace` is NOT total on the reachable state with a non-empty
line and `pos = 0`: feeding the bytes `A`, CR, DEL to a fresh terminal
panics (the Go slice `activeLine[:pos-1]` is out of bounds), which the
model reports as `none`. -/
theorem c3_del_after_cr_crashes :
    processBytes 100 [0x41, 0x0D, 0x7F] = none := by
  rfl

/-- C1: the byte streams `ESC [ ? 1 0 4 9 h` and `ESC [ ? 4 7 h` do NOT
invoke the upgrade hook and do not make `Run` return early: the CSI
dispatch is delivered with intermediates `"?"`, but `handleCSI` only
handles final `'h'` under `intermediates == ""`, inside which the
`intermediates == "?"` test is always false.  `Run` continues to EOF with
`upgraded = false` and zero hook invocations. -/
theorem c1_upgrade_never_fires :
    processBytes 100 [0x1B, 0x5B, 0x3F, 0x31, 0x30, 0x34, 0x39, 0x68] =
      some ⟨some .output, ⟨[0x31, 0x30, 0x34, 0x39], [], [0x3F]⟩,
        ⟨initScreen, false, 0, [.csi [[0x31, 0x30, 0x34, 0x39]] [0x3F] 0x68]⟩,
        [], .stopEOF⟩ ∧
    processBytes 100 [0x1B, 0x5B, 0x3F, 0x34, 0x37, 0x68] =
      some ⟨some .output, ⟨[0x34, 0x37], [], [0x3F]⟩,
        ⟨initScreen, false, 0, [.csi [[0x34, 0x37]] [0x3F] 0x68]⟩,
        [], .stopEOF⟩ := by
  exact ⟨rfl, rfl⟩

theorem convertParams_isNone (d : Int) (ps : List (List Nat)) (p : List Nat)
    (hp : p ∈ ps) (hne : p ≠ []) (hat : atoi p = none) :
    convertParams d ps = none := by
  induction ps with
  | nil => cases hp
  | cons hd tl ih =>
    rcases List.mem_cons.mp hp with h1 | h2
    · subst h1
      simp [convertParams, hne, hat]
    · have htl : convertParams d tl = none := ih h2
      cases hb : (if hd = [] then some d else atoi hd) with
      | none => simp [convertParams, hb]
      | some b => simp [convertParams, hb, htl]

theorem convertParams_empty_default (d : Int) :
    ∀ (ps : List (List Nat)) (r : List Int) (i : Nat),
      convertParams d ps = some r → ps[i]? = some [] → r[i]? = some d := by
  intro ps
  induction ps with
  | nil =>
    intro r i h hi
    simp at hi
  | cons hd tl ih =>
    intro r i h hi
    cases hb : (if hd = [] then some d else atoi hd) with
    | none => simp [convertParams, hb] at h
    | some b =>
      cases hrs : convertParams d tl with
      | none => simp [convertParams, hb, hrs] at h
      | some rs =>
        have hr : r = b :: rs := by
          simp [convertParams, hb, hrs] at h
          exact h.symm
        subst hr
        cases i with
        | zero =>
          have hhd : hd = [] := by simpa using hi
          subst hhd
          have hbd : b = d := by simpa using hb.symm
          simpa using hbd
        | succ j =>
          have hj : tl[j]? = some [] := by simpa using hi
          simpa using ih rs j hrs hj

/-- C6 corrected: a non-empty, non-integer parameter makes `handleCSI`
panic for exactly the finals that convert their parameters (`C D E J K G H
h m` with empty intermediates); empty parameter strings are replaced by the
caller-specified default.  (Dispatches that never reach the conversion —
e.g. an unhandled final — do not panic; see the counterexample.) -/
theorem c6_nonint_param_fails_where_converted :
    (∀ (t : Term) (ps : List (List Nat)) (fb : Nat),
        fb ∈ ([0x43, 0x44, 0x45, 0x4A, 0x4B, 0x47, 0x48, 0x68, 0x6D] : List Nat) →
        (∃ p ∈ ps, p ≠ [] ∧ atoi p = none) →
        termHandleCSI t ps [] fb = none) ∧
    (∀ (d : Int) (ps : List (List Nat)) (r : List Int) (i : Nat),
        convertParams d ps = some r → ps[i]? = some [] → r[i]? = some d) := by
  constructor
  · intro t ps fb hfb hex
    obtain ⟨p, hp, hne, hat⟩ := hex
    by_cases hps : ps = []
    · simp [termHandleCSI, hps]
    · have hc1 : convertParams 1 ps = none := convertParams_isNone 1 ps p hp hne hat
      have hc0 : convertParams 0 ps = none := convertParams_isNone 0 ps p hp hne hat
      fin_cases hfb <;> simp [termHandleCSI, termHandleCSIMain, hps, hc1, hc0]
  · exact convertParams_empty_default

/-- C6 counterexample: the claim quantifies over EVERY CSI dispatch, but a
dispatch whose final byte is not handled (here `'A'`) never converts its
parameters, so the non-integer parameter `"x"` does not make it panic. -/
theorem c6_counterexample : termHandleCSI initTerm [[0x78]] [] 0x41 = some initTerm := by
  rfl

/-- C6 witness. -/
theorem c6_witness :
    termHandleCSI initTerm [[0x78]] [] 0x43 = none ∧
    ([7] : List Int)[0]? = some 7 :=
  ⟨c6_nonint_param_fails_where_converted.1 initTerm [[0x78]] 0x43 (by decide)
     ⟨[0x78], by decide, by decide, by rfl⟩,
   c6_nonint_param_fails_where_converted.2 7 [[]] [7] 0 (by rfl) (by rfl)⟩

/-- C7: the extended-color rule of `handleSGR` for a leading 38/48: with
next parameter 2 and at least three more, five parameters are consumed and
the fore/background becomes the direct color of the following three values;
with next parameter 5 and at least one more, three are consumed and it
becomes the indexed color of the following value; otherwise exactly one is
consumed and the screen is untouched; the SGR loop continues with the
parameters after the consumed ones. -/
theorem c7_extended_color (s : Screen) (p0 : Int) (rest : List Int)
    (hc : p0 = 38 ∨ p0 = 48) :
    (∀ r g b more, rest = 2 :: r :: g :: b :: more →
      handleSGR s (p0 :: rest) =
        some ((if p0 = 38 then
                 s.setFg (some (Color.rgb ((r % 256).toNat) ((g % 256).toNat) ((b % 256).toNat)))
               else
                 s.setBg (some (Color.rgb ((r % 256).toNat) ((g % 256).toNat) ((b % 256).toNat)))),
              5)) ∧
    (∀ n more, rest = 5 :: n :: more →
      handleSGR s (p0 :: rest) =
        some ((if p0 = 38 then s.setFg (some (Color.ansi n))
               else s.setBg (some (Color.ansi n))), 3)) ∧
    ((rest.head? ≠ some 2 ∨ rest.length < 4) →
     (rest.head? ≠ some 5 ∨ rest.length < 2) →
      handleSGR s (p0 :: rest) = some (s, 1)) ∧
    (∀ s' h, handleSGR s (p0 :: rest) = some (s', h) →
      sgrLoop s (p0 :: rest) = sgrLoop s' ((p0 :: rest).drop h)) := by
  have hmain : ∀ setter : Screen → Option Color → Screen,
      (∀ r g b more, rest = 2 :: r :: g :: b :: more →
        handleColorSeq s setter (p0 :: rest) =
          (setter s (some (Color.rgb ((r % 256).toNat) ((g % 256).toNat) ((b % 256).toNat))), 5)) ∧
      (∀ n more, rest = 5 :: n :: more →
        handleColorSeq s setter (p0 :: rest) = (setter s (some (Color.ansi n)), 3)) ∧
      ((rest.head? ≠ some 2 ∨ rest.length < 4) →
       (rest.head? ≠ some 5 ∨ rest.length < 2) →
        handleColorSeq s setter (p0 :: rest) = (s, 1)) := by
    intro setter
    refine ⟨?_, ?_, ?_⟩
    · intro r g b more hr
      subst hr
      rfl
    · intro n more hr
      subst hr
      rfl
    · intro h2 h5
      rw [handleColorSeq.eq_def]
      split
      · rename_i heq
        injection heq with e1 e2
        subst e2
        simp at h2
        omega
      · rename_i heq
        injection heq with e1 e2
        subst e2
        simp at h5
        omega
      · rfl
  have hstep : ∀ s' h', handleSGR s (p0 :: rest) = some (s', h') →
      sgrLoop s (p0 :: rest) = sgrLoop s' ((p0 :: rest).drop h') := by
    intro s' h' hh
    rw [sgrLoop]
    rw [dif_neg (by simp : ¬(p0 :: rest) = [])]
    split
    · rename_i heq
      rw [hh] at heq
      exact Option.noConfusion heq
    · rename_i s2 h2 heq
      rw [hh] at heq
      injection heq with e1
      injection e1 with e2 e3
      rw [e2, e3]
  rcases hc with h | h
  · subst h
    obtain ⟨m1, m2, m3⟩ := hmain Screen.setFg
    refine ⟨?_, ?_, ?_, hstep⟩
    · intro r g b more hr
      simp [handleSGR, m1 r g b more hr]
    · intro n more hr
      simp [handleSGR, m2 n more hr]
    · intro h2 h5
      simp [handleSGR, m3 h2 h5]
  · subst h
    obtain ⟨m1, m2, m3⟩ := hmain Screen.setBg
    refine ⟨?_, ?_, ?_, hstep⟩
    · intro r g b more hr
      simp [handleSGR, m1 r g b more hr]
    · intro n more hr
      simp [handleSGR, m2 n more hr]
    · intro h2 h5
      simp [handleSGR, m3 h2 h5]

/-- C7 witness. -/
theorem c7_witness :
    handleSGR initScreen [38, 2, 10, 20, 30] =
      some (initScreen.setFg (some (Color.rgb 10 20 30)), 5) := by
  have h := (c7_extended_color initScreen 38 [2, 10, 20, 30] (Or.inl rfl)).1
    10 20 30 [] rfl
  simpa using h

/-! ## Screen-operation reachability (for the attribute-sharing claim) -/

/-- The screen's public mutating operations (§4.3 of the spec /
`terminal.go`), as data. -/
inductive ScreenOp where
| print (r : Char)
| backspace
| newline
| left (n : Int)
| right (n : Int)
| cr
| newlines (n : Int)
| setPos (x y : Int)
| clear
| clearLeft
| clearRight
| resetAttributes
| setStyle (flags : Nat)
| resetStyle (flags : Nat)
| setFg (c : Option Color)
| setBg (c : Option Color)
| resetFg
| resetBg
| setURI (u : String)
| resetURI
deriving DecidableEq, Repr

/-- Apply one screen operation (`none` models a Go panic). -/
def applyOp (s : Screen) : ScreenOp → Option Screen
| .print r => some (s.print r)
| .backspace => s.backspace
| .newline => some s.newline
| .left n => some (s.left n)
| .right n => some (s.right n)
| .cr => some s.cr
| .newlines n => some (s.newlines n)
| .setPos x y => some (s.setPos x y)
| .clear => some s.clear
| .clearLeft => s.clearLeft
| .clearRight => s.clearRight
| .resetAttributes => some s.resetAttributes
| .setStyle f => some (s.setStyle f)
| .resetStyle f => some (s.resetStyle f)
| .setFg c => some (s.setFg c)
| .setBg c => some (s.setBg c)
| .resetFg => some s.resetFg
| .resetBg => some s.resetBg
| .setURI u => some (s.setURI u)
| .resetURI => some s.resetURI

/-- Apply a sequence of screen operations. -/
def processOps (s : Screen) (ops : List ScreenOp) : Option Screen :=
  List.foldlM applyOp s ops

theorem set_append_len {α : Type} (l : List α) (a b : α) :
    (l ++ [a]).set l.length b = l ++ [b] := by
  rw [List.set_append]
  simp

theorem copy_setCur_store (s : Screen) (a : StyleAttributes) :
    ((s.copyAttributes).setCur a).store = s.store ++ [a] := by
  show ((s.store ++ [s.curAttrs]).set s.store.length a) = s.store ++ [a]
  exact set_append_len s.store s.curAttrs a

theorem print_store (s : Screen) (r : Char) : (s.print r).store = s.store := by
  rw [Screen.print]
  split <;> rfl

theorem padN_store (n : Nat) : ∀ s : Screen, (s.padN n).store = s.store := by
  induction n with
  | zero => intro s; rfl
  | succ k ih =>
    intro s
    rw [Screen.padN, ih, print_store]

theorem setPos_store (s : Screen) (x y : Int) : (s.setPos x y).store = s.store := by
  rw [Screen.setPos]
  split
  · rfl
  · show (s.padN _).store = s.store
    exact padN_store _ s

theorem newlinesN_store (n : Nat) : ∀ s : Screen, (s.newlinesN n).store = s.store := by
  induction n with
  | zero => intro s; rfl
  | succ k ih => intro s; rw [Screen.newlinesN, ih]; rfl

theorem backspace_store (s s' : Screen) (h : s.backspace = some s') :
    s'.store = s.store := by
  rw [Screen.backspace] at h
  split at h
  · injection h with h1; rw [← h1]
  · split at h
    · injection h with h1; rw [← h1]
    · exact Option.noConfusion h

theorem clearLeft_store (s s' : Screen) (h : s.clearLeft = some s') :
    s'.store = s.store := by
  rw [Screen.clearLeft] at h
  split at h
  · injection h with h1; rw [← h1]
  · exact Option.noConfusion h

theorem clearRight_store (s s' : Screen) (h : s.clearRight = some s') :
    s'.store = s.store := by
  rw [Screen.clearRight] at h
  split at h
  · injection h with h1; rw [← h1]
  · exact Option.noConfusion h

/-- The store only ever grows, and entries below the old length are
untouched. -/
def storeExtends (s s' : Screen) : Prop :=
  s.store.length ≤ s'.store.length ∧
  ∀ i, i < s.store.length → s'.store[i]? = s.store[i]?

theorem storeExtends_of_eq {s s' : Screen} (h : s'.store = s.store) :
    storeExtends s s' := by
  rw [storeExtends, h]
  exact ⟨Nat.le.refl, fun i _ => rfl⟩

theorem storeExtends_of_append {s s' : Screen} (l2 : List StyleAttributes)
    (h : s'.store = s.store ++ l2) : storeExtends s s' := by
  rw [storeExtends, h]
  constructor
  · simp
  · intro i hi
    exact List.getElem?_append_left hi

theorem storeExtends_trans {s1 s2 s3 : Screen}
    (h1 : storeExtends s1 s2) (h2 : storeExtends s2 s3) : storeExtends s1 s3 := by
  refine ⟨Nat.le_trans h1.1 h2.1, fun i hi => ?_⟩
  rw [h2.2 i (Nat.lt_of_lt_of_le hi h1.1), h1.2 i hi]

theorem applyOp_storeExtends (s : Screen) (op : ScreenOp) (s' : Screen)
    (h : applyOp s op = some s') : storeExtends s s' := by
  cases op with
  | print r =>
    injection h with h1
    exact storeExtends_of_eq (h1 ▸ print_store s r)
  | backspace => exact storeExtends_of_eq (backspace_store s s' h)
  | newline =>
    injection h with h1
    exact storeExtends_of_eq (by rw [← h1]; rfl)
  | left n =>
    injection h with h1
    exact storeExtends_of_eq (by rw [← h1]; exact setPos_store s 0 _)
  | right n =>
    injection h with h1
    exact storeExtends_of_eq (by rw [← h1]; exact setPos_store s 0 _)
  | cr =>
    injection h with h1
    exact storeExtends_of_eq (by rw [← h1]; rfl)
  | newlines n =>
    injection h with h1
    exact storeExtends_of_eq (by rw [← h1]; exact newlinesN_store _ s)
  | setPos x y =>
    injection h with h1
    exact storeExtends_of_eq (by rw [← h1]; exact setPos_store s x y)
  | clear =>
    injection h with h1
    exact storeExtends_of_eq (by rw [← h1]; rfl)
  | clearLeft => exact storeExtends_of_eq (clearLeft_store s s' h)
  | clearRight => exact storeExtends_of_eq (clearRight_store s s' h)
  | resetAttributes =>
    injection h with h1
    exact storeExtends_of_append [defaultAttrs] (by rw [← h1]; rfl)
  | setStyle f =>
    injection h with h1
    exact storeExtends_of_append _ (by rw [← h1]; exact copy_setCur_store s _)
  | resetStyle f =>
    injection h with h1
    exact storeExtends_of_append _ (by rw [← h1]; exact copy_setCur_store s _)
  | setFg c =>
    injection h with h1
    exact storeExtends_of_append _ (by rw [← h1]; exact copy_setCur_store s _)
  | setBg c =>
    injection h with h1
    exact storeExtends_of_append _ (by rw [← h1]; exact copy_setCur_store s _)
  | resetFg =>
    injection h with h1
    exact storeExtends_of_append _ (by rw [← h1]; exact copy_setCur_store s _)
  | resetBg =>
    injection h with h1
    exact storeExtends_of_append _ (by rw [← h1]; exact copy_setCur_store s _)
  | setURI u =>
    injection h with h1
    exact storeExtends_of_append _ (by rw [← h1]; exact copy_setCur_store s _)
  | resetURI =>
    injection h with h1
    exact storeExtends_of_append _ (by rw [← h1]; exact copy_setCur_store s _)

theorem processOps_storeExtends (ops : List ScreenOp) :
    ∀ s s' : Screen, processOps s ops = some s' → storeExtends s s' := by
  induction ops with
  | nil =>
    intro s s' h
    injection h with h1
    exact storeExtends_of_eq (by rw [h1])
  | cons op rest ih =>
    intro s s' h
    rw [processOps, List.foldlM_cons] at h
    cases hop : applyOp s op with
    | none => rw [hop] at h; exact Option.noConfusion h
    | some s1 =>
      rw [hop] at h
      simp at h
      exact storeExtends_trans (applyOp_storeExtends s op s1 hop) (ih s1 s' h)

/-- Every node reference and the active pointer are live store indices. -/
def wfS (s : Screen) : Prop :=
  s.activeAttributes < s.store.length ∧
  (∀ n ∈ s.activeLine, n.attrs < s.store.length) ∧
  (∀ l ∈ s.scrollback, ∀ n ∈ l, n.attrs < s.store.length)

theorem wfS_init : wfS initScreen := by
  refine ⟨by decide, ?_, ?_⟩ <;> intro x hx <;> cases hx

theorem print_fields (s : Screen) (r : Char) :
    (s.print r).store = s.store ∧ (s.print r).activeAttributes = s.activeAttributes ∧
    (s.print r).scrollback = s.scrollback ∧
    (∀ n ∈ (s.print r).activeLine, n ∈ s.activeLine ∨ n = ⟨r, s.activeAttributes⟩) := by
  rw [Screen.print]
  split
  · refine ⟨rfl, rfl, rfl, fun n hn => List.mem_or_eq_of_mem_set hn⟩
  · refine ⟨rfl, rfl, rfl, fun n hn => ?_⟩
    rcases List.mem_append.mp hn with h | h
    · exact Or.inl h
    · exact Or.inr (List.mem_singleton.mp h)

theorem wf_print (s : Screen) (r : Char) (hw : wfS s) : wfS (s.print r) := by
  obtain ⟨hst, hact, hscr, hmem⟩ := print_fields s r
  refine ⟨?_, ?_, ?_⟩
  · rw [hst, hact]; exact hw.1
  · intro n hn
    rw [hst]
    rcases hmem n hn with h | h
    · exact hw.2.1 n h
    · rw [h]; exact hw.1
  · intro l hl n hn
    rw [hst]
    rw [hscr] at hl
    exact hw.2.2 l hl n hn

theorem wf_padN (n : Nat) : ∀ s : Screen, wfS s → wfS (s.padN n) := by
  induction n with
  | zero => intro s hw; exact hw
  | succ k ih =>
    intro s hw
    rw [Screen.padN]
    exact ih (s.print ' ') (wf_print s ' ' hw)

theorem wf_pos_update (s : Screen) (p : Nat) (hw : wfS s) : wfS { s with pos := p } :=
  hw

theorem wf_setPos (s : Screen) (x y : Int) (hw : wfS s) : wfS (s.setPos x y) := by
  rw [Screen.setPos]
  split
  · exact hw
  · exact wf_pos_update _ _ (wf_padN _ s hw)

theorem wf_newline (s : Screen) (hw : wfS s) : wfS s.newline := by
  refine ⟨hw.1, ?_, ?_⟩
  · intro n hn; cases hn
  · intro l hl n hn
    rcases List.mem_append.mp hl with h | h
    · exact hw.2.2 l h n hn
    · rw [List.mem_singleton.mp h] at hn
      exact hw.2.1 n hn

theorem wf_newlinesN (n : Nat) : ∀ s : Screen, wfS s → wfS (s.newlinesN n) := by
  induction n with
  | zero => intro s hw; exact hw
  | succ k ih =>
    intro s hw
    rw [Screen.newlinesN]
    exact ih s.newline (wf_newline s hw)

theorem wf_backspace (s s' : Screen) (h : s.backspace = some s') (hw : wfS s) :
    wfS s' := by
  rw [Screen.backspace] at h
  split at h
  · injection h with h1; rw [← h1]; exact hw
  · split at h
    · injection h with h1
      rw [← h1]
      refine ⟨hw.1, ?_, hw.2.2⟩
      intro n hn
      rcases List.mem_append.mp hn with h2 | h2
      · exact hw.2.1 n (List.mem_of_mem_take h2)
      · exact hw.2.1 n (List.mem_of_mem_drop h2)
    · exact Option.noConfusion h

theorem wf_clearLeft (s s' : Screen) (h : s.clearLeft = some s') (hw : wfS s) :
    wfS s' := by
  rw [Screen.clearLeft] at h
  split at h
  · injection h with h1
    rw [← h1]
    refine ⟨hw.1, ?_, hw.2.2⟩
    intro n hn
    rcases List.mem_append.mp hn with h2 | h2
    · rw [List.eq_of_mem_replicate h2]
      exact hw.1
    · exact hw.2.1 n (List.mem_of_mem_drop h2)
  · exact Option.noConfusion h

theorem wf_clearRight (s s' : Screen) (h : s.clearRight = some s') (hw : wfS s) :
    wfS s' := by
  rw [Screen.clearRight] at h
  split at h
  · injection h with h1
    rw [← h1]
    refine ⟨hw.1, ?_, hw.2.2⟩
    intro n hn
    exact hw.2.1 n (List.mem_of_mem_take hn)
  · exact Option.noConfusion h

theorem wf_copy_setCur (s : Screen) (a : StyleAttributes) (hw : wfS s) :
    wfS ((s.copyAttributes).setCur a) := by
  have hst : ((s.copyAttributes).setCur a).store = s.store ++ [a] := copy_setCur_store s a
  refine ⟨?_, ?_, ?_⟩
  · show s.store.length < ((s.copyAttributes).setCur a).store.length
    rw [hst]
    simp
  · intro n hn
    rw [hst]
    have : n.attrs < s.store.length := hw.2.1 n hn
    simp
    omega
  · intro l hl n hn
    rw [hst]
    have : n.attrs < s.store.length := hw.2.2 l hl n hn
    simp
    omega

theorem wf_resetAttributes (s : Screen) (hw : wfS s) : wfS s.resetAttributes := by
  refine ⟨?_, ?_, ?_⟩
  · show s.store.length < (s.store ++ [defaultAttrs]).length
    simp
  · intro n hn
    have : n.attrs < s.store.length := hw.2.1 n hn
    show n.attrs < (s.store ++ [defaultAttrs]).length
    simp
    omega
  · intro l hl n hn
    have : n.attrs < s.store.length := hw.2.2 l hl n hn
    show n.attrs < (s.store ++ [defaultAttrs]).length
    simp
    omega

theorem applyOp_wf (s : Screen) (op : ScreenOp) (s' : Screen)
    (h : applyOp s op = some s') (hw : wfS s) : wfS s' := by
  cases op with
  | print r => injection h with h1; rw [← h1]; exact wf_print s r hw
  | backspace => exact wf_backspace s s' h hw
  | newline => injection h with h1; rw [← h1]; exact wf_newline s hw
  | left n => injection h with h1; rw [← h1]; exact wf_setPos s 0 _ hw
  | right n => injection h with h1; rw [← h1]; exact wf_setPos s 0 _ hw
  | cr => injection h with h1; rw [← h1]; exact hw
  | newlines n => injection h with h1; rw [← h1]; exact wf_newlinesN _ s hw
  | setPos x y => injection h with h1; rw [← h1]; exact wf_setPos s x y hw
  | clear =>
    injection h with h1
    rw [← h1]
    refine ⟨hw.1, ?_, hw.2.2⟩
    intro n hn
    cases hn
  | clearLeft => exact wf_clearLeft s s' h hw
  | clearRight => exact wf_clearRight s s' h hw
  | resetAttributes => injection h with h1; rw [← h1]; exact wf_resetAttributes s hw
  | setStyle f => injection h with h1; rw [← h1]; exact wf_copy_setCur s _ hw
  | resetStyle f => injection h with h1; rw [← h1]; exact wf_copy_setCur s _ hw
  | setFg c => injection h with h1; rw [← h1]; exact wf_copy_setCur s _ hw
  | setBg c => injection h with h1; rw [← h1]; exact wf_copy_setCur s _ hw
  | resetFg => injection h with h1; rw [← h1]; exact wf_copy_setCur s _ hw
  | resetBg => injection h with h1; rw [← h1]; exact wf_copy_setCur s _ hw
  | setURI u => injection h with h1; rw [← h1]; exact wf_copy_setCur s _ hw
  | resetURI => injection h with h1; rw [← h1]; exact wf_copy_setCur s _ hw

theorem processOps_wf (ops : List ScreenOp) :
    ∀ s s' : Screen, wfS s → processOps s ops = some s' → wfS s' := by
  induction ops with
  | nil =>
    intro s s' hw h
    injection h with h1
    rw [← h1]
    exact hw
  | cons op rest ih =>
    intro s s' hw h
    rw [processOps, List.foldlM_cons] at h
    cases hop : applyOp s op with
    | none => rw [hop] at h; exact Option.noConfusion h
    | some s1 =>
      rw [hop] at h
      simp at h
      exact ih s1 s' (applyOp_wf s op s1 hop hw) h

/-- C4: a bundle referenced by any node already on the screen is never
mutated by later operations: for any reachable screen `s1` and any node in
its active line or scrollback, every further operation sequence leaves the
store entry the node references exactly as it was (mutators only append a
fresh copy and redirect `activeAttributes` to it; `resetAttributes`
installs a fresh bundle). -/
theorem c4_bundles_immutable (ops1 ops2 : List ScreenOp) (s1 s2 : Screen)
    (h1 : processOps initScreen ops1 = some s1)
    (h2 : processOps s1 ops2 = some s2)
    (n : Node) (hn : n ∈ s1.activeLine ∨ ∃ l ∈ s1.scrollback, n ∈ l) :
    s2.store[n.attrs]? = s1.store[n.attrs]? ∧ (s1.store[n.attrs]?).isSome = true := by
  have hwf : wfS s1 := processOps_wf ops1 initScreen s1 wfS_init h1
  have hb : n.attrs < s1.store.length := by
    rcases hn with h | ⟨l, hl, hnl⟩
    · exact hwf.2.1 n h
    · exact hwf.2.2 l hl n hnl
  have hext := processOps_storeExtends ops2 s1 s2 h2
  constructor
  · exact hext.2 n.attrs hb
  · rw [List.getElem?_eq_getElem hb]
    rfl

/-- The screen after printing `A` on a fresh screen. -/
def c4s1 : Screen := ⟨[], [⟨'A', 0⟩], 1, [defaultAttrs], 0⟩

/-- The screen after additionally applying SGR bold (`setStyle Bold`). -/
def c4s2 : Screen := ⟨[], [⟨'A', 0⟩], 1, [defaultAttrs, ⟨1, none, none, none, ""⟩], 1⟩

/-- C4 witness. -/
theorem c4_witness :
    c4s2.store[(⟨'A', 0⟩ : Node).attrs]? = c4s1.store[(⟨'A', 0⟩ : Node).attrs]? ∧
    (c4s1.store[(⟨'A', 0⟩ : Node).attrs]?).isSome = true :=
  c4_bundles_immutable [.print 'A'] [.setStyle 1] c4s1 c4s2 (by rfl) (by rfl)
    ⟨'A', 0⟩ (Or.inl (by decide))

/-! ## Superscript/Subscript exclusivity (C9) -/

/-- The Superscript/Subscript bits are not both set. -/
def flagsOK (g : Nat) : Prop := g &&& Superscript = 0 ∨ g &&& Subscript = 0

/-- The invariant on a terminal: the current bundle's flags are exclusive. -/
def TermOK (t : Term) : Prop := flagsOK t.screen.curAttrs.styleFlags

theorem land_lor_distrib (a b c : Nat) : (a ||| b) &&& c = (a &&& c) ||| (b &&& c) := by
  apply Nat.eq_of_testBit_eq
  intro i
  rw [Nat.testBit_land, Nat.testBit_lor, Nat.testBit_lor, Nat.testBit_land, Nat.testBit_land]
  cases ha : a.testBit i <;> cases hb : b.testBit i <;> cases hc : c.testBit i <;> rfl

theorem land_zero_right (a : Nat) : a &&& 0 = 0 := by
  apply Nat.eq_of_testBit_eq
  intro i
  rw [Nat.testBit_land]
  simp

theorem land_zero_left (a : Nat) : 0 &&& a = 0 := by
  rw [Nat.land_comm]
  exact land_zero_right a

theorem flagsOK_lor (g c : Nat) (h : flagsOK g) (h1 : c &&& Superscript = 0)
    (h2 : c &&& Subscript = 0) : flagsOK (g ||| c) := by
  rcases h with h | h
  · left
    rw [land_lor_distrib, h, h1]
    decide
  · right
    rw [land_lor_distrib, h, h2]
    decide

theorem flagsOK_land (g m : Nat) (h : flagsOK g) : flagsOK (g &&& m) := by
  have key : ∀ b : Nat, g &&& b = 0 → (g &&& m) &&& b = 0 := by
    intro b hb
    calc (g &&& m) &&& b = g &&& (m &&& b) := Nat.land_assoc ..
      _ = g &&& (b &&& m) := by rw [Nat.land_comm m b]
      _ = (g &&& b) &&& m := (Nat.land_assoc ..).symm
      _ = 0 &&& m := by rw [hb]
      _ = 0 := land_zero_left m
  rcases h with h | h
  · exact Or.inl (key _ h)
  · exact Or.inr (key _ h)

theorem flagsOK_after73 (g : Nat) :
    flagsOK ((g ||| Superscript) &&& (0xFFFFFFFF ^^^ Subscript)) := by
  right
  have hm : (0xFFFFFFFF ^^^ Subscript) &&& Subscript = 0 := by decide
  rw [Nat.land_assoc, hm, land_zero_right]

theorem flagsOK_after74 (g : Nat) :
    flagsOK ((g ||| Subscript) &&& (0xFFFFFFFF ^^^ Superscript)) := by
  left
  have hm : (0xFFFFFFFF ^^^ Superscript) &&& Superscript = 0 := by decide
  rw [Nat.land_assoc, hm, land_zero_right]

theorem flagsOK_zero : flagsOK 0 := Or.inl (land_zero_left _)

theorem curAttrs_copy (s : Screen) : (s.copyAttributes).curAttrs = s.curAttrs := by
  show (s.store ++ [s.curAttrs]).getD s.store.length defaultAttrs = s.curAttrs
  rw [List.getD_eq_getElem?_getD, List.getElem?_concat_length]
  rfl

theorem curAttrs_copy_setCur (s : Screen) (a : StyleAttributes) :
    ((s.copyAttributes).setCur a).curAttrs = a := by
  show (((s.store ++ [s.curAttrs]).set s.store.length a).getD s.store.length defaultAttrs) = a
  rw [set_append_len, List.getD_eq_getElem?_getD, List.getElem?_concat_length]
  rfl

theorem resetAttributes_curAttrs (s : Screen) :
    (s.resetAttributes).curAttrs = defaultAttrs := by
  show (s.store ++ [defaultAttrs]).getD s.store.length defaultAttrs = defaultAttrs
  rw [List.getD_eq_getElem?_getD, List.getElem?_concat_length]
  rfl

theorem setStyle_curAttrs (s : Screen) (f : Nat) :
    (s.setStyle f).curAttrs =
      { s.curAttrs with styleFlags := s.curAttrs.styleFlags ||| f } := by
  show ((s.copyAttributes).setCur _).curAttrs = _
  rw [curAttrs_copy_setCur, curAttrs_copy]

theorem resetStyle_curAttrs (s : Screen) (f : Nat) :
    (s.resetStyle f).curAttrs =
      { s.curAttrs with styleFlags := s.curAttrs.styleFlags &&& (0xFFFFFFFF ^^^ f) } := by
  show ((s.copyAttributes).setCur _).curAttrs = _
  rw [curAttrs_copy_setCur, curAttrs_copy]

theorem setFg_curAttrs (s : Screen) (c : Option Color) :
    (s.setFg c).curAttrs = { s.curAttrs with fg := c } := by
  show ((s.copyAttributes).setCur _).curAttrs = _
  rw [curAttrs_copy_setCur, curAttrs_copy]

theorem setBg_curAttrs (s : Screen) (c : Option Color) :
    (s.setBg c).curAttrs = { s.curAttrs with bg := c } := by
  show ((s.copyAttributes).setCur _).curAttrs = _
  rw [curAttrs_copy_setCur, curAttrs_copy]

theorem setURI_curAttrs (s : Screen) (u : String) :
    (s.setURI u).curAttrs = { s.curAttrs with uri := u } := by
  show ((s.copyAttributes).setCur _).curAttrs = _
  rw [curAttrs_copy_setCur, curAttrs_copy]

theorem resetURI_curAttrs (s : Screen) :
    (s.resetURI).curAttrs = { s.curAttrs with uri := "" } := by
  show ((s.copyAttributes).setCur _).curAttrs = _
  rw [curAttrs_copy_setCur, curAttrs_copy]

theorem setStyle_flags (s : Screen) (f : Nat) :
    (s.setStyle f).curAttrs.styleFlags = s.curAttrs.styleFlags ||| f := by
  rw [setStyle_curAttrs]

theorem resetStyle_flags (s : Screen) (f : Nat) :
    (s.resetStyle f).curAttrs.styleFlags =
      s.curAttrs.styleFlags &&& (0xFFFFFFFF ^^^ f) := by
  rw [resetStyle_curAttrs]

theorem setFg_flags (s : Screen) (c : Option Color) :
    (s.setFg c).curAttrs.styleFlags = s.curAttrs.styleFlags := by
  rw [setFg_curAttrs]

theorem setBg_flags (s : Screen) (c : Option Color) :
    (s.setBg c).curAttrs.styleFlags = s.curAttrs.styleFlags := by
  rw [setBg_curAttrs]

theorem resetFg_flags (s : Screen) :
    (s.resetFg).curAttrs.styleFlags = s.curAttrs.styleFlags := by
  show (s.setFg none).curAttrs.styleFlags = _
  rw [setFg_flags]

theorem resetBg_flags (s : Screen) :
    (s.resetBg).curAttrs.styleFlags = s.curAttrs.styleFlags := by
  show (s.setBg none).curAttrs.styleFlags = _
  rw [setBg_flags]

theorem setURI_flags (s : Screen) (u : String) :
    (s.setURI u).curAttrs.styleFlags = s.curAttrs.styleFlags := by
  rw [setURI_curAttrs]

theorem resetURI_flags (s : Screen) :
    (s.resetURI).curAttrs.styleFlags = s.curAttrs.styleFlags := by
  rw [resetURI_curAttrs]

theorem print_curAttrs (s : Screen) (r : Char) : (s.print r).curAttrs = s.curAttrs := by
  rw [Screen.print]
  split <;> rfl

theorem padN_curAttrs (n : Nat) : ∀ s : Screen, (s.padN n).curAttrs = s.curAttrs := by
  induction n with
  | zero => intro s; rfl
  | succ k ih =>
    intro s
    rw [Screen.padN, ih, print_curAttrs]

theorem setPos_curAttrs (s : Screen) (x y : Int) :
    (s.setPos x y).curAttrs = s.curAttrs := by
  rw [Screen.setPos]
  split
  · rfl
  · show (s.padN _).curAttrs = s.curAttrs
    exact padN_curAttrs _ s

theorem newlinesN_curAttrs (n : Nat) :
    ∀ s : Screen, (s.newlinesN n).curAttrs = s.curAttrs := by
  induction n with
  | zero => intro s; rfl
  | succ k ih =>
    intro s
    rw [Screen.newlinesN, ih]
    rfl

theorem backspace_curAttrs (s s' : Screen) (h : s.backspace = some s') :
    s'.curAttrs = s.curAttrs := by
  rw [Screen.backspace] at h
  split at h
  · injection h with h1; rw [← h1]
  · split at h
    · injection h with h1
      rw [← h1]
      rfl
    · exact Option.noConfusion h

theorem clearLeft_curAttrs (s s' : Screen) (h : s.clearLeft = some s') :
    s'.curAttrs = s.curAttrs := by
  rw [Screen.clearLeft] at h
  split at h
  · injection h with h1
    rw [← h1]
    rfl
  · exact Option.noConfusion h

theorem clearRight_curAttrs (s s' : Screen) (h : s.clearRight = some s') :
    s'.curAttrs = s.curAttrs := by
  rw [Screen.clearRight] at h
  split at h
  · injection h with h1
    rw [← h1]
    rfl
  · exact Option.noConfusion h

set_option maxHeartbeats 800000 in
theorem sgr_arm1_ok (s : Screen) (p0 : Int) (hpre : flagsOK s.curAttrs.styleFlags) :
    flagsOK ((if p0 = 0 then s.resetAttributes
      else if p0 = 1 then s.setStyle Bold
      else if p0 = 2 then s.setStyle Dim
      else if p0 = 3 then s.setStyle Italic
      else if p0 = 4 then s.setStyle Underline
      else if p0 = 5 ∨ p0 = 6 then s.setStyle Blink
      else if p0 = 7 then s.setStyle Inverted
      else if p0 = 8 then s.setStyle Hidden
      else if p0 = 9 then s.setStyle Strikethrough
      else if p0 = 21 then s.resetStyle Bold
      else if p0 = 22 then s.resetStyle Dim
      else if p0 = 23 then s.resetStyle Italic
      else if p0 = 24 then s.resetStyle Underline
      else if p0 = 25 then s.resetStyle Blink
      else if p0 = 27 then s.resetStyle Inverted
      else if p0 = 28 then s.resetStyle Hidden
      else if p0 = 29 then s.resetStyle Strikethrough
      else if p0 = 39 then s.resetFg
      else if p0 = 49 then s.resetBg
      else if p0 = 73 then (s.setStyle Superscript).resetStyle Subscript
      else if p0 = 74 then (s.setStyle Subscript).resetStyle Superscript
      else if p0 = 75 then s.resetStyle (Superscript ||| Subscript)
      else s).curAttrs.styleFlags) := by
  by_cases h0 : p0 = 0
  · rw [if_pos h0, resetAttributes_curAttrs]
    exact flagsOK_zero
  rw [if_neg h0]
  by_cases h1 : p0 = 1
  · rw [if_pos h1, setStyle_flags]
    exact flagsOK_lor _ _ hpre (by decide) (by decide)
  rw [if_neg h1]
  by_cases h2 : p0 = 2
  · rw [if_pos h2, setStyle_flags]
    exact flagsOK_lor _ _ hpre (by decide) (by decide)
  rw [if_neg h2]
  by_cases h3 : p0 = 3
  · rw [if_pos h3, setStyle_flags]
    exact flagsOK_lor _ _ hpre (by decide) (by decide)
  rw [if_neg h3]
  by_cases h4 : p0 = 4
  · rw [if_pos h4, setStyle_flags]
    exact flagsOK_lor _ _ hpre (by decide) (by decide)
  rw [if_neg h4]
  by_cases h56 : p0 = 5 ∨ p0 = 6
  · rw [if_pos h56, setStyle_flags]
    exact flagsOK_lor _ _ hpre (by decide) (by decide)
  rw [if_neg h56]
  by_cases h7 : p0 = 7
  · rw [if_pos h7, setStyle_flags]
    exact flagsOK_lor _ _ hpre (by decide) (by decide)
  rw [if_neg h7]
  by_cases h8 : p0 = 8
  · rw [if_pos h8, setStyle_flags]
    exact flagsOK_lor _ _ hpre (by decide) (by decide)
  rw [if_neg h8]
  by_cases h9 : p0 = 9
  · rw [if_pos h9, setStyle_flags]
    exact flagsOK_lor _ _ hpre (by decide) (by decide)
  rw [if_neg h9]
  by_cases h21 : p0 = 21
  · rw [if_pos h21, resetStyle_flags]
    exact flagsOK_land _ _ hpre
  rw [if_neg h21]
  by_cases h22 : p0 = 22
  · rw [if_pos h22, resetStyle_flags]
    exact flagsOK_land _ _ hpre
  rw [if_neg h22]
  by_cases h23 : p0 = 23
  · rw [if_pos h23, resetStyle_flags]
    exact flagsOK_land _ _ hpre
  rw [if_neg h23]
  by_cases h24 : p0 = 24
  · rw [if_pos h24, resetStyle_flags]
    exact flagsOK_land _ _ hpre
  rw [if_neg h24]
  by_cases h25 : p0 = 25
  · rw [if_pos h25, resetStyle_flags]
    exact flagsOK_land _ _ hpre
  rw [if_neg h25]
  by_cases h27 : p0 = 27
  · rw [if_pos h27, resetStyle_flags]
    exact flagsOK_land _ _ hpre
  rw [if_neg h27]
  by_cases h28 : p0 = 28
  · rw [if_pos h28, resetStyle_flags]
    exact flagsOK_land _ _ hpre
  rw [if_neg h28]
  by_cases h29 : p0 = 29
  · rw [if_pos h29, resetStyle_flags]
    exact flagsOK_land _ _ hpre
  rw [if_neg h29]
  by_cases h39 : p0 = 39
  · rw [if_pos h39, resetFg_flags]
    exact hpre
  rw [if_neg h39]
  by_cases h49 : p0 = 49
  · rw [if_pos h49, resetBg_flags]
    exact hpre
  rw [if_neg h49]
  by_cases h73 : p0 = 73
  · rw [if_pos h73, resetStyle_flags, setStyle_flags]
    exact flagsOK_after73 _
  rw [if_neg h73]
  by_cases h74 : p0 = 74
  · rw [if_pos h74, resetStyle_flags, setStyle_flags]
    exact flagsOK_after74 _
  rw [if_neg h74]
  by_cases h75 : p0 = 75
  · rw [if_pos h75, resetStyle_flags]
    exact flagsOK_land _ _ hpre
  rw [if_neg h75]
  exact hpre

set_option maxHeartbeats 800000 in
theorem sgr_arm2_ok (s1 : Screen) (p0 : Int) (h : flagsOK s1.curAttrs.styleFlags) :
    flagsOK ((if 30 ≤ p0 ∧ p0 ≤ 37 then s1.setFg (some (Color.ansi (p0 - 30)))
      else if 40 ≤ p0 ∧ p0 ≤ 47 then s1.setBg (some (Color.ansi (p0 - 40)))
      else if 90 ≤ p0 ∧ p0 ≤ 97 then s1.setFg (some (Color.ansi (p0 - 90 + 8)))
      else if 100 ≤ p0 ∧ p0 ≤ 107 then s1.setBg (some (Color.ansi (p0 - 100 + 8)))
      else s1).curAttrs.styleFlags) := by
  by_cases ha : 30 ≤ p0 ∧ p0 ≤ 37
  · rw [if_pos ha, setFg_flags]
    exact h
  rw [if_neg ha]
  by_cases hb : 40 ≤ p0 ∧ p0 ≤ 47
  · rw [if_pos hb, setBg_flags]
    exact h
  rw [if_neg hb]
  by_cases hc : 90 ≤ p0 ∧ p0 ≤ 97
  · rw [if_pos hc, setFg_flags]
    exact h
  rw [if_neg hc]
  by_cases hd : 100 ≤ p0 ∧ p0 ≤ 107
  · rw [if_pos hd, setBg_flags]
    exact h
  rw [if_neg hd]
  exact h

theorem handleSGR_supsub (s : Screen) (nps : List Int) (s' : Screen) (h' : Nat)
    (hpre : flagsOK s.curAttrs.styleFlags)
    (hh : handleSGR s nps = some (s', h')) : flagsOK s'.curAttrs.styleFlags := by
  cases nps with
  | nil =>
    rw [handleSGR] at hh
    exact Option.noConfusion hh
  | cons p0 rest =>
    rw [handleSGR] at hh
    by_cases h38 : p0 = 38
    · rw [if_pos h38] at hh
      injection hh with h1
      have hs : s' = (handleColorSeq s Screen.setFg (p0 :: rest)).1 := by rw [h1]
      rw [hs, handleColorSeq.eq_def]
      split
      · simpa [setFg_flags] using hpre
      · simpa [setFg_flags] using hpre
      · simpa using hpre
    · rw [if_neg h38] at hh
      by_cases h48 : p0 = 48
      · rw [if_pos h48] at hh
        injection hh with h1
        have hs : s' = (handleColorSeq s Screen.setBg (p0 :: rest)).1 := by rw [h1]
        rw [hs, handleColorSeq.eq_def]
        split
        · simpa [setBg_flags] using hpre
        · simpa [setBg_flags] using hpre
        · simpa using hpre
      · rw [if_neg h48] at hh
        injection hh with h1
        injection h1 with e1 e2
        rw [← e1]
        exact sgr_arm2_ok _ p0 (sgr_arm1_ok s p0 hpre)

theorem sgrLoop_supsub (k : Nat) :
    ∀ (nps : List Int) (s s' : Screen), nps.length ≤ k →
      flagsOK s.curAttrs.styleFlags → sgrLoop s nps = some s' →
      flagsOK s'.curAttrs.styleFlags := by
  induction k with
  | zero =>
    intro nps s s' hk hp h
    have hnil : nps = [] := List.eq_nil_of_length_eq_zero (by omega)
    subst hnil
    rw [sgrLoop] at h
    simp at h
    rw [← h]
    exact hp
  | succ m ih =>
    intro nps s s' hk hp h
    by_cases hn : nps = []
    · rw [sgrLoop, dif_pos hn] at h
      injection h with h1
      rw [← h1]
      exact hp
    · rw [sgrLoop, dif_neg hn] at h
      split at h
      · exact Option.noConfusion h
      · rename_i s1 h1 heq
        have hpos := handleSGR_pos s nps (s1, h1) heq
        have hlen : (nps.drop h1).length ≤ m := by
          rw [List.length_drop]
          have : 0 < nps.length := List.length_pos.mpr hn
          omega
        exact ih (nps.drop h1) s1 s' hlen
          (handleSGR_supsub s nps s1 h1 hp heq) h

theorem TermOK_mk (sc : Screen) (u : Bool) (k : Nat) (tr : List Event)
    (h : flagsOK sc.curAttrs.styleFlags) : TermOK ⟨sc, u, k, tr⟩ := h

theorem reset_screen_TermOK (t1 : Term) :
    TermOK { t1 with screen := t1.screen.resetAttributes } := by
  show flagsOK (t1.screen.resetAttributes).curAttrs.styleFlags
  rw [resetAttributes_curAttrs]
  exact flagsOK_zero

theorem termHandleCSI_supsub (t : Term) (ps : List (List Nat)) (inters : List Nat)
    (fb : Nat) (t' : Term) (h : termHandleCSI t ps inters fb = some t')
    (hp : TermOK t) : TermOK t' := by
  rw [termHandleCSI] at h
  by_cases hps : ps = []
  · rw [if_pos hps] at h
    exact Option.noConfusion h
  · rw [if_neg hps] at h
    rcases Option.bind_eq_some.mp h with ⟨t1, hX, hf⟩
    rw [termHandleCSIMain] at hX
    have ht1 : TermOK t1 := by
      by_cases hin : inters = []
      · subst hin
        rw [if_pos rfl] at hX
        by_cases hC : fb = 0x43
        · rw [if_pos hC] at hX
          rcases Option.bind_eq_some.mp hX with ⟨np, hc, hbody⟩
          split at hbody
          · injection hbody with hb
            rw [← hb]
            show flagsOK (t.screen.right _).curAttrs.styleFlags
            rw [Screen.right, setPos_curAttrs]
            exact hp
          · exact Option.noConfusion hbody
        rw [if_neg hC] at hX
        by_cases hD : fb = 0x44
        · rw [if_pos hD] at hX
          rcases Option.bind_eq_some.mp hX with ⟨np, hc, hbody⟩
          split at hbody
          · injection hbody with hb
            rw [← hb]
            show flagsOK (t.screen.left _).curAttrs.styleFlags
            rw [Screen.left, setPos_curAttrs]
            exact hp
          · exact Option.noConfusion hbody
        rw [if_neg hD] at hX
        by_cases hE : fb = 0x45
        · rw [if_pos hE] at hX
          rcases Option.bind_eq_some.mp hX with ⟨np, hc, hbody⟩
          split at hbody
          · injection hbody with hb
            rw [← hb]
            show flagsOK (t.screen.newlines _).curAttrs.styleFlags
            rw [Screen.newlines, newlinesN_curAttrs]
            exact hp
          · exact Option.noConfusion hbody
        rw [if_neg hE] at hX
        by_cases hJK : fb = 0x4A ∨ fb = 0x4B
        · rw [if_pos hJK] at hX
          rcases Option.bind_eq_some.mp hX with ⟨np, hc, hbody⟩
          split at hbody
          · rename_i n0 rest2
            by_cases h0 : n0 = 0
            · rw [if_pos h0] at hbody
              rcases Option.map_eq_some'.mp hbody with ⟨sc, hsc, hb⟩
              rw [← hb]
              show flagsOK sc.curAttrs.styleFlags
              rw [clearRight_curAttrs t.screen sc hsc]
              exact hp
            · rw [if_neg h0] at hbody
              by_cases h1 : n0 = 1
              · rw [if_pos h1] at hbody
                rcases Option.map_eq_some'.mp hbody with ⟨sc, hsc, hb⟩
                rw [← hb]
                show flagsOK sc.curAttrs.styleFlags
                rw [clearLeft_curAttrs t.screen sc hsc]
                exact hp
              · rw [if_neg h1] at hbody
                by_cases h2 : n0 = 2
                · rw [if_pos h2] at hbody
                  injection hbody with hb
                  rw [← hb]
                  exact hp
                · rw [if_neg h2] at hbody
                  injection hbody with hb
                  rw [← hb]
                  exact hp
          · exact Option.noConfusion hbody
        rw [if_neg hJK] at hX
        by_cases hG : fb = 0x47
        · rw [if_pos hG] at hX
          rcases Option.bind_eq_some.mp hX with ⟨np, hc, hbody⟩
          split at hbody
          · injection hbody with hb
            rw [← hb]
            show flagsOK (t.screen.setPos 0 _).curAttrs.styleFlags
            rw [setPos_curAttrs]
            exact hp
          · exact Option.noConfusion hbody
        rw [if_neg hG] at hX
        by_cases hH : fb = 0x48
        · rw [if_pos hH] at hX
          rcases Option.bind_eq_some.mp hX with ⟨np, hc, hbody⟩
          split at hbody
          · injection hbody with hb
            rw [← hb]
            exact TermOK_mk _ _ _ _ (by rw [setPos_curAttrs]; exact hp)
          · exact Option.noConfusion hbody
        rw [if_neg hH] at hX
        by_cases hSM : fb = 0x68
        · rw [if_pos hSM] at hX
          rcases Option.bind_eq_some.mp hX with ⟨np, hc, hbody⟩
          injection hbody with hb
          rw [← hb]
          rw [if_neg (by decide : ¬([] : List Nat) = [0x3F])]
          exact hp
        rw [if_neg hSM] at hX
        by_cases hm : fb = 0x6D
        · rw [if_pos hm] at hX
          rcases Option.bind_eq_some.mp hX with ⟨np, hc, hbody⟩
          rcases Option.bind_eq_some.mp hbody with ⟨sc, hsg, hb⟩
          injection hb with hb1
          rw [← hb1]
          show flagsOK sc.curAttrs.styleFlags
          exact sgrLoop_supsub np.length np t.screen sc (Nat.le_refl _) hp hsg
        rw [if_neg hm] at hX
        injection hX with hb
        rw [← hb]
        exact hp
      · rw [if_neg hin] at hX
        injection hX with hb
        rw [← hb]
        exact hp
    injection hf with hf1
    rw [← hf1]
    by_cases hsoft : inters = [0x21] ∧ fb = 0x70
    · rw [if_pos hsoft]
      exact reset_screen_TermOK t1
    · rw [if_neg hsoft]
      exact ht1
theorem dispatchEvent_supsub (t : Term) (e : Event) (t' : Term)
    (h : dispatchEvent t e = some t') (hp : TermOK t) : TermOK t' := by
  cases e with
  | printRune r =>
    injection h with h1
    rw [← h1]
    show flagsOK (Screen.print _ r).curAttrs.styleFlags
    rw [print_curAttrs]
    exact hp
  | ctrl c =>
    rcases Option.map_eq_some'.mp h with ⟨sc, hsc, hb⟩
    rw [← hb]
    show flagsOK sc.curAttrs.styleFlags
    rw [screenHandleCtrl] at hsc
    split at hsc
    · injection hsc with h1
      rw [← h1, print_curAttrs]
      exact hp
    · split at hsc
      · injection hsc with h1
        rw [← h1]
        exact hp
      · split at hsc
        · injection hsc with h1
          rw [← h1]
          show flagsOK (Screen.left _ 1).curAttrs.styleFlags
          rw [Screen.left, setPos_curAttrs]
          exact hp
        · split at hsc
          · rw [backspace_curAttrs _ sc hsc]
            exact hp
          · split at hsc
            · injection hsc with h1
              rw [← h1]
              exact hp
            · split at hsc
              · injection hsc with h1
                rw [← h1]
                exact hp
              · injection hsc with h1
                rw [← h1]
                exact hp
  | esc i f =>
    injection h with h1
    rw [← h1]
    show flagsOK (screenHandleEsc i f _).curAttrs.styleFlags
    rw [screenHandleEsc]
    split
    · rw [resetAttributes_curAttrs]
      exact flagsOK_zero
    · exact hp
  | csi ps i f => exact termHandleCSI_supsub _ ps i f t' h hp
  | osc ps =>
    injection h with h1
    rw [← h1]
    show flagsOK (screenHandleOSC ps _).curAttrs.styleFlags
    rw [screenHandleOSC.eq_def]
    split
    · exact hp
    · split
      · split
        · rw [resetURI_flags]
          exact hp
        · rw [setURI_flags]
          exact hp
      · exact hp
  | dcs ps i f =>
    injection h with h1
    rw [← h1]
    exact hp

theorem processEvents_supsub (evs : List Event) :
    ∀ t t' : Term, TermOK t → processEvents t evs = some t' → TermOK t' := by
  induction evs with
  | nil =>
    intro t t' hp h
    injection h with h1
    rw [← h1]
    exact hp
  | cons e rest ih =>
    intro t t' hp h
    rw [processEvents, List.foldlM_cons] at h
    cases he : dispatchEvent t e with
    | none => rw [he] at h; exact Option.noConfusion h
    | some t1 =>
      rw [he] at h
      simp at h
      exact ih t1 t' (dispatchEvent_supsub t e t1 he hp) h

/-- C9: in every terminal state reachable by delivering dispatch events to a
fresh terminal, the current attribute bundle never has both the Superscript
and the Subscript flag set (SGR 73 sets Superscript clearing Subscript, 74
the converse, 75 clears both). -/
theorem c9_sup_sub_exclusive (evs : List Event) (t : Term)
    (h : processEvents initTerm evs = some t) :
    t.screen.curAttrs.styleFlags &&& Superscript = 0 ∨
    t.screen.curAttrs.styleFlags &&& Subscript = 0 :=
  processEvents_supsub evs initTerm t (Or.inl (by decide)) h

/-- C9 witness. -/
theorem c9_witness :
    (⟨⟨[[]], [], 0, [defaultAttrs], 0⟩, false, 0, [.ctrl 0x0A]⟩ : Term).screen.curAttrs.styleFlags &&&
      Superscript = 0 ∨
    (⟨⟨[[]], [], 0, [defaultAttrs], 0⟩, false, 0, [.ctrl 0x0A]⟩ : Term).screen.curAttrs.styleFlags &&&
      Subscript = 0 :=
  c9_sup_sub_exclusive [.ctrl 0x0A] ⟨⟨[[]], [], 0, [defaultAttrs], 0⟩, false, 0, [.ctrl 0x0A]⟩ (by rfl)

end TP
